import Mathlib

/-!
# FRESCO codec facade: a shallow embedding

The definitions below follow `include/fresco/fresco.h` and the translation
units under `src/core/` (`utils.cpp`, `compression.cpp`, `container.cpp`,
`encoder.cpp`, `decoder.cpp`).

Conventions of the embedding:

* a byte is a `Fin 256`; a pointer/length pair `(const uint8_t* p, size_t n)`
  with `p` non-null is the list of the `n` bytes at `p`, so `input_size` is the
  length of that list; a null pointer argument is `none`;
* an out-parameter `T* q` is `none` when the caller passes null and `some v`
  when it points at caller storage currently holding `v`; every call returns
  what that storage holds afterwards;
* unsigned machine integers are naturals, reduced modulo `2^w` where the source
  narrows a value; the one `double` computation of the source, the square root
  in `parse_image_format`, is carried out exactly in integer arithmetic;
* the C heap is a parameter (`Heap`): it decides which `std::malloc` requests
  return null and which `std::vector` storage requests throw `std::bad_alloc`.
-/

namespace fresco

/-! ## Types of `fresco.h` and `compression.h` -/

/-- Error codes of `fresco_error_t`, in declaration order (values 0 to 8). -/
inductive fresco_error_t
  | FRESCO_OK
  | FRESCO_ERROR_INVALID_PARAMETER
  | FRESCO_ERROR_OUT_OF_MEMORY
  | FRESCO_ERROR_IO
  | FRESCO_ERROR_UNSUPPORTED_FORMAT
  | FRESCO_ERROR_CORRUPTED_DATA
  | FRESCO_ERROR_ENCODING_FAILED
  | FRESCO_ERROR_DECODING_FAILED
  | FRESCO_ERROR_NOT_IMPLEMENTED
  deriving DecidableEq

/-- Colour spaces of `fresco_colorspace_t`, in declaration order. -/
inductive fresco_colorspace_t
  | FRESCO_COLORSPACE_RGB
  | FRESCO_COLORSPACE_RGBA
  | FRESCO_COLORSPACE_YUV420
  | FRESCO_COLORSPACE_YUV422
  | FRESCO_COLORSPACE_YUV444
  | FRESCO_COLORSPACE_GRAY
  | FRESCO_COLORSPACE_GRAYA
  deriving DecidableEq

/-- Compression modes of `fresco_compression_t`. -/
inductive fresco_compression_t
  | FRESCO_COMPRESSION_LOSSY
  | FRESCO_COMPRESSION_LOSSLESS
  deriving DecidableEq

open fresco_error_t fresco_colorspace_t fresco_compression_t

deriving instance DecidableEq for Except

/-- One `uint8_t` of pixel or container data. -/
abbrev uint8_t := Fin 256

/-- The bytes `[p, p + n)` behind a non-null pointer `p` with length `n`. -/
abbrev Buffer := List uint8_t

/-- The struct `fresco_metadata_t`; `frame_rate` is a `float` in the source and
only ever receives the literal `0.0f`, kept here as a rational. -/
structure fresco_metadata_t where
  width : Nat
  height : Nat
  channels : Nat
  bit_depth : Nat
  colorspace : fresco_colorspace_t
  frame_count : Nat
  frame_rate : Rat
  file_size : Nat
  compressed_size : Nat
  deriving DecidableEq

/-- The struct `fresco_encode_params_t`: `quality` and `effort` are `uint8_t`,
`max_threads` and `tile_size` are `uint32_t`, the three flags are `int`. -/
structure fresco_encode_params_t where
  mode : fresco_compression_t
  quality : Nat
  effort : Nat
  max_threads : Nat
  tile_size : Nat
  enable_animation : Int
  enable_3d : Int
  enable_vector : Int
  deriving DecidableEq

/-- The struct `fresco_decode_params_t`. -/
structure fresco_decode_params_t where
  max_threads : Nat
  enable_progressive : Int
  enable_metadata : Int
  deriving DecidableEq

/-- The struct `ImageInfo` of `compression.h`. -/
structure ImageInfo where
  width : Nat
  height : Nat
  channels : Nat
  bit_depth : Nat
  colorspace : fresco_colorspace_t
  deriving DecidableEq

/-- The struct `ContainerInfo` of `compression.h`. -/
structure ContainerInfo where
  width : Nat
  height : Nat
  channels : Nat
  bit_depth : Nat
  colorspace : fresco_colorspace_t
  frame_count : Nat
  frame_rate : Rat
  compressed_size : Nat
  deriving DecidableEq

/-! ## The heap -/

/-- Behaviour of the C++ heap during one call: `malloc_ok n` tells whether
`std::malloc(n)` returns a non-null pointer, `vector_ok n` whether a
`std::vector<uint8_t>` obtains storage for `n` bytes (when it does not, the
vector operation throws `std::bad_alloc`). Every facade call performs at most
one `std::malloc`, and any throwing vector operation ends the call in the same
`catch`, so these two size-indexed answers determine the call. -/
structure Heap where
  malloc_ok : Nat → Bool
  vector_ok : Nat → Bool

/-- A heap on which every request succeeds. -/
def Heap.unbounded : Heap :=
  { malloc_ok := fun _ => true, vector_ok := fun _ => true }

/-- Whether the heap grants both a vector and a `std::malloc` block of `n`
bytes, which is all a facade call on an `n`-byte buffer asks of it. -/
def Heap.serves (heap : Heap) (n : Nat) : Bool := heap.vector_ok n && heap.malloc_ok n

/-- A heap on which `std::malloc` always returns null. -/
def Heap.exhausted : Heap :=
  { malloc_ok := fun _ => false, vector_ok := fun _ => true }

/-- The function `fresco_malloc` of `utils.cpp` is `std::malloc`; the result is
`true` for a non-null pointer to `size` fresh bytes. -/
def fresco_malloc (heap : Heap) (size : Nat) : Bool := heap.malloc_ok size

/-- Whether a `std::vector<uint8_t>` that is to hold `n` bytes gets them: an
empty range needs no storage, so nothing is requested and nothing can throw;
otherwise the heap decides. -/
def Heap.vector_grants (heap : Heap) (n : Nat) : Bool := n == 0 || heap.vector_ok n

/-- Filling a `std::vector<uint8_t>` with the bytes `src` (`assign` from a range,
or copy assignment): `none` stands for the `std::bad_alloc` thrown when the heap
refuses the storage, which can only happen for a non-empty `src`. -/
def vector_assign (heap : Heap) (src : Buffer) : Option Buffer :=
  if heap.vector_grants src.length then some src else none

/-! ## `utils.cpp` -/

/-- Number of binary digits of `n` (0 for `n = 0`), found by at most `fuel`
halvings; it is the true digit count for `n < 2^fuel`. -/
def bit_length : Nat → Nat → Nat
  | 0, _ => 0
  | fuel + 1, n => if n = 0 then 0 else bit_length fuel (n / 2) + 1

/-- Integer floor square root, one base-4 digit of the argument per step; it is
the true floor root for `n < 4^fuel`. -/
def isqrt : Nat → Nat → Nat
  | 0, _ => 0
  | fuel + 1, n =>
    if (2 * isqrt fuel (n / 4) + 1) * (2 * isqrt fuel (n / 4) + 1) ≤ n then
      2 * isqrt fuel (n / 4) + 1
    else 2 * isqrt fuel (n / 4)

/-- The conversion of a `size_t` value to `double` that `std::sqrt(pixel_count)`
performs on its integer argument: values below `2^53` are exact, larger ones are
rounded to the nearest number with a 53-bit significand, ties to the even
significand. The result is the value of the `double`, an integer. -/
def size_t_to_double (n : Nat) : Nat :=
  if n < 2 ^ 53 then n
  else
    let shift := bit_length 64 n - 53
    let q := n / 2 ^ shift
    let rest := n % 2 ^ shift
    if 2 * rest > 2 ^ shift ∨ (2 * rest = 2 ^ shift ∧ q % 2 = 1) then (q + 1) * 2 ^ shift
    else q * 2 ^ shift

/-- The call `std::sqrt` on a `double` holding the integer `d`, followed by
`static_cast<size_t>`. The IEEE 754 square root is correctly rounded: with
`2^e ≤ √d < 2^(e+1)` the exact root is `M * 2^(e-52)` for a real significand `M`
in `[2^52, 2^53)`, `q` is the integer part of `M` (the floor root of
`d * 4^(52-e)`), and the root returned has significand `q + 1` when `M` lies
above `q + 1/2` (that is, `q*q + q < d * 4^(52-e)`; a tie cannot occur) and `q`
otherwise. The cast then drops the fractional part. -/
def sqrt_double_truncated (d : Nat) : Nat :=
  if d = 0 then 0
  else
    let e := bit_length 64 (isqrt 64 d) - 1
    let t := 52 - e
    let scaled := d * 4 ^ t
    let q := isqrt 128 scaled
    let m := if q * q + q < scaled then q + 1 else q
    m / 2 ^ t

/-- The expression `static_cast<size_t>(std::sqrt(pixel_count))`: the `size_t`
is converted to `double`, the square root is taken in `double`, and the result
is truncated. Below `2^52` pixels this is the integer floor square root; from
`2^52 + 2^27` pixels on the rounding of the root can reach the next integer. -/
def sqrt_size_t (pixel_count : Nat) : Nat := sqrt_double_truncated (size_t_to_double pixel_count)

/-- The function `parse_image_format` of `utils.cpp`; the argument is the
buffer `(input_data, input_size)`, of which only the size is inspected.
`Except.error e` is an early `return e` that leaves `image_info` unwritten,
`Except.ok i` is `return FRESCO_OK` with `image_info = i`. The side is the
`double` square root of the pixel count truncated to `size_t`, and the
assignments to the `uint32_t` fields `width` and `height` narrow it. -/
def parse_image_format (input_data : Buffer) : Except fresco_error_t ImageInfo :=
  let input_size := input_data.length
  if input_size % 3 ≠ 0 then
    .error FRESCO_ERROR_UNSUPPORTED_FORMAT
  else
    let pixel_count := input_size / 3
    let side_length := sqrt_size_t pixel_count
    .ok { width := side_length % 2 ^ 32
          height := side_length % 2 ^ 32
          channels := 3
          bit_depth := 8
          colorspace := FRESCO_COLORSPACE_RGB }

/-- The function `convert_to_output_format` of `utils.cpp`: a vector copy that
returns `FRESCO_OK`; `none` when the copy throws. -/
def convert_to_output_format (heap : Heap) (decompressed_data : Buffer) (_container_info : ContainerInfo) :
    Option (fresco_error_t × Buffer) :=
  (vector_assign heap decompressed_data).map (fun output_format_data => (FRESCO_OK, output_format_data))

/-! ## `compression.cpp` -/

/-- The method `Compression::compress`: `compressed_data.assign(input_data,
input_data + input_size)` followed by `return FRESCO_OK`; `none` when the
assignment throws. -/
def Compression.compress (heap : Heap) (input_data : Buffer) (_image_info : ImageInfo)
    (_params : fresco_encode_params_t) : Option (fresco_error_t × Buffer) :=
  (vector_assign heap input_data).map (fun compressed_data => (FRESCO_OK, compressed_data))

/-- The method `Compression::decompress`: `decompressed_data = compressed_data`
followed by `return FRESCO_OK`; `none` when the copy throws. -/
def Compression.decompress (heap : Heap) (compressed_data : Buffer) (_container_info : ContainerInfo)
    (_params : fresco_decode_params_t) : Option (fresco_error_t × Buffer) :=
  (vector_assign heap compressed_data).map (fun decompressed_data => (FRESCO_OK, decompressed_data))

/-! ## `container.cpp` -/

/-- The method `Container::initialize`: returns `FRESCO_OK` and stores nothing. -/
def Container.initialize (_image_info : ImageInfo) (_params : fresco_encode_params_t) : fresco_error_t :=
  FRESCO_OK

/-- The method `Container::finalize`: `container_data = compressed_data` followed
by `return FRESCO_OK`; `none` when the copy throws. -/
def Container.finalize (heap : Heap) (compressed_data : Buffer) : Option (fresco_error_t × Buffer) :=
  (vector_assign heap compressed_data).map (fun container_data => (FRESCO_OK, container_data))

/-- The method `Container::parse`: fills `container_info` with fixed values and
the input size, and returns `FRESCO_OK`; the input bytes are not read. -/
def Container.parse (input_data : Buffer) : fresco_error_t × ContainerInfo :=
  (FRESCO_OK,
    { width := 1920
      height := 1080
      channels := 3
      bit_depth := 8
      colorspace := FRESCO_COLORSPACE_RGB
      frame_count := 1
      frame_rate := 0
      compressed_size := input_data.length })

/-- The method `Container::parse_header`: forwards to `Container::parse`. -/
def Container.parse_header (input_data : Buffer) : fresco_error_t × ContainerInfo :=
  Container.parse input_data

/-- The method `Container::extract_data`: `compressed_data.assign(input_data,
input_data + input_size)` followed by `return FRESCO_OK`; `none` when the
assignment throws. -/
def Container.extract_data (heap : Heap) (input_data : Buffer) : Option (fresco_error_t × Buffer) :=
  (vector_assign heap input_data).map (fun compressed_data => (FRESCO_OK, compressed_data))

/-! ## `encoder.cpp` -/

/-- What a facade call leaves behind: the object it ran on, the returned status,
and the contents of the caller storage behind `output_data` and `output_size`
(`none` for a null argument; for `output_data`, `some none` is a stored null
pointer and `some (some b)` a stored pointer to a fresh buffer holding `b`). -/
structure CallResult (σ : Type) where
  self : σ
  status : fresco_error_t
  output_data : Option (Option Buffer)
  output_size : Option Nat
  deriving DecidableEq

/-- The class `EncoderImpl`: the members `container_` and `compression_` have no
data members, so the state is `params_`. -/
structure EncoderImpl where
  params_ : fresco_encode_params_t
  deriving DecidableEq

/-- The constructor `EncoderImpl::EncoderImpl()` with its default parameters. -/
def EncoderImpl.ctor : EncoderImpl :=
  { params_ :=
      { mode := FRESCO_COMPRESSION_LOSSY
        quality := 85
        effort := 5
        max_threads := 0
        tile_size := 256
        enable_animation := 0
        enable_3d := 0
        enable_vector := 0 } }

/-- The method `EncoderImpl::set_params`; `params = none` is a null pointer. -/
def EncoderImpl.set_params (self : EncoderImpl) (params : Option fresco_encode_params_t) :
    fresco_error_t × EncoderImpl :=
  match params with
  | none => (FRESCO_ERROR_INVALID_PARAMETER, self)
  | some p =>
    if p.quality < 1 ∨ p.quality > 100 then
      (FRESCO_ERROR_INVALID_PARAMETER, self)
    else if p.effort < 1 ∨ p.effort > 10 then
      (FRESCO_ERROR_INVALID_PARAMETER, self)
    else
      (FRESCO_OK, { self with params_ := p })

/-- The method `EncoderImpl::encode`. Each `none` of a vector operation is an
exception reaching the `catch`, which returns `FRESCO_ERROR_ENCODING_FAILED`. -/
def EncoderImpl.encode (self : EncoderImpl) (heap : Heap) (input_data : Option Buffer)
    (output_data : Option (Option Buffer)) (output_size : Option Nat) : CallResult EncoderImpl :=
  match input_data, output_data, output_size with
  | some input, some _, some _ =>
    match parse_image_format input with
    | .error result => ⟨self, result, output_data, output_size⟩
    | .ok image_info =>
      let result := Container.initialize image_info self.params_
      if result ≠ FRESCO_OK then ⟨self, result, output_data, output_size⟩ else
      match Compression.compress heap input image_info self.params_ with
      | none => ⟨self, FRESCO_ERROR_ENCODING_FAILED, output_data, output_size⟩
      | some (result, compressed_data) =>
        if result ≠ FRESCO_OK then ⟨self, result, output_data, output_size⟩ else
        match Container.finalize heap compressed_data with
        | none => ⟨self, FRESCO_ERROR_ENCODING_FAILED, output_data, output_size⟩
        | some (result, container_data) =>
          if result ≠ FRESCO_OK then ⟨self, result, output_data, output_size⟩ else
          let size := container_data.length
          if fresco_malloc heap size then
            ⟨self, FRESCO_OK, some (some container_data), some size⟩
          else
            ⟨self, FRESCO_ERROR_OUT_OF_MEMORY, some none, some size⟩
  | _, _, _ => ⟨self, FRESCO_ERROR_INVALID_PARAMETER, output_data, output_size⟩

/-- The C entry point `fresco_encoder_set_params`; `encoder = none` is a null
handle. -/
def fresco_encoder_set_params (encoder : Option EncoderImpl) (params : Option fresco_encode_params_t) :
    fresco_error_t × Option EncoderImpl :=
  match encoder with
  | none => (FRESCO_ERROR_INVALID_PARAMETER, none)
  | some impl => ((impl.set_params params).1, some (impl.set_params params).2)

/-- The C entry point `fresco_encoder_encode`; `encoder = none` is a null
handle. -/
def fresco_encoder_encode (encoder : Option EncoderImpl) (heap : Heap) (input_data : Option Buffer)
    (output_data : Option (Option Buffer)) (output_size : Option Nat) :
    CallResult (Option EncoderImpl) :=
  match encoder with
  | none => ⟨none, FRESCO_ERROR_INVALID_PARAMETER, output_data, output_size⟩
  | some impl =>
    let r := impl.encode heap input_data output_data output_size
    ⟨some r.self, r.status, r.output_data, r.output_size⟩

/-! ## `decoder.cpp` -/

/-- The class `DecoderImpl`: as for the encoder, the state is `params_`. -/
structure DecoderImpl where
  params_ : fresco_decode_params_t
  deriving DecidableEq

/-- The constructor `DecoderImpl::DecoderImpl()` with its default parameters. -/
def DecoderImpl.ctor : DecoderImpl :=
  { params_ := { max_threads := 0, enable_progressive := 0, enable_metadata := 0 } }

/-- The method `DecoderImpl::set_params`; `params = none` is a null pointer. -/
def DecoderImpl.set_params (self : DecoderImpl) (params : Option fresco_decode_params_t) :
    fresco_error_t × DecoderImpl :=
  match params with
  | none => (FRESCO_ERROR_INVALID_PARAMETER, self)
  | some p => (FRESCO_OK, { self with params_ := p })

/-- The method `DecoderImpl::decode`. Each `none` of a vector operation is an
exception reaching the `catch`, which returns `FRESCO_ERROR_DECODING_FAILED`. -/
def DecoderImpl.decode (self : DecoderImpl) (heap : Heap) (input_data : Option Buffer)
    (output_data : Option (Option Buffer)) (output_size : Option Nat) : CallResult DecoderImpl :=
  match input_data, output_data, output_size with
  | some input, some _, some _ =>
    let (result, container_info) := Container.parse input
    if result ≠ FRESCO_OK then ⟨self, result, output_data, output_size⟩ else
    match Container.extract_data heap input with
    | none => ⟨self, FRESCO_ERROR_DECODING_FAILED, output_data, output_size⟩
    | some (result, compressed_data) =>
      if result ≠ FRESCO_OK then ⟨self, result, output_data, output_size⟩ else
      match Compression.decompress heap compressed_data container_info self.params_ with
      | none => ⟨self, FRESCO_ERROR_DECODING_FAILED, output_data, output_size⟩
      | some (result, decompressed_data) =>
        if result ≠ FRESCO_OK then ⟨self, result, output_data, output_size⟩ else
        match convert_to_output_format heap decompressed_data container_info with
        | none => ⟨self, FRESCO_ERROR_DECODING_FAILED, output_data, output_size⟩
        | some (result, output_format_data) =>
          if result ≠ FRESCO_OK then ⟨self, result, output_data, output_size⟩ else
          let size := output_format_data.length
          if fresco_malloc heap size then
            ⟨self, FRESCO_OK, some (some output_format_data), some size⟩
          else
            ⟨self, FRESCO_ERROR_OUT_OF_MEMORY, some none, some size⟩
  | _, _, _ => ⟨self, FRESCO_ERROR_INVALID_PARAMETER, output_data, output_size⟩

/-- The method `DecoderImpl::get_metadata`; `metadata` is the caller storage
behind the out-pointer (`none` for null), returned as the call leaves it. No
statement of its `try` block can throw. -/
def DecoderImpl.get_metadata (_self : DecoderImpl) (input_data : Option Buffer)
    (metadata : Option fresco_metadata_t) : fresco_error_t × Option fresco_metadata_t :=
  match input_data, metadata with
  | some input, some _ =>
    let (result, container_info) := Container.parse_header input
    if result ≠ FRESCO_OK then (result, metadata) else
    (FRESCO_OK, some
      { width := container_info.width
        height := container_info.height
        channels := container_info.channels
        bit_depth := container_info.bit_depth
        colorspace := container_info.colorspace
        frame_count := container_info.frame_count
        frame_rate := container_info.frame_rate
        file_size := input.length
        compressed_size := container_info.compressed_size })
  | _, _ => (FRESCO_ERROR_INVALID_PARAMETER, metadata)

/-- The C entry point `fresco_decoder_set_params`; `decoder = none` is a null
handle. -/
def fresco_decoder_set_params (decoder : Option DecoderImpl) (params : Option fresco_decode_params_t) :
    fresco_error_t × Option DecoderImpl :=
  match decoder with
  | none => (FRESCO_ERROR_INVALID_PARAMETER, none)
  | some impl => ((impl.set_params params).1, some (impl.set_params params).2)

/-- The C entry point `fresco_decoder_decode`; `decoder = none` is a null
handle. -/
def fresco_decoder_decode (decoder : Option DecoderImpl) (heap : Heap) (input_data : Option Buffer)
    (output_data : Option (Option Buffer)) (output_size : Option Nat) :
    CallResult (Option DecoderImpl) :=
  match decoder with
  | none => ⟨none, FRESCO_ERROR_INVALID_PARAMETER, output_data, output_size⟩
  | some impl =>
    let r := impl.decode heap input_data output_data output_size
    ⟨some r.self, r.status, r.output_data, r.output_size⟩

/-- The C entry point `fresco_get_metadata`: checks its pointers, then runs
`get_metadata` on a default-constructed `DecoderImpl` living on the stack. -/
def fresco_get_metadata (input_data : Option Buffer) (metadata : Option fresco_metadata_t) :
    fresco_error_t × Option fresco_metadata_t :=
  match input_data, metadata with
  | some _, some _ => DecoderImpl.ctor.get_metadata input_data metadata
  | _, _ => (FRESCO_ERROR_INVALID_PARAMETER, metadata)

/-! ## Handle creation (`encoder.cpp`, `decoder.cpp`) -/

/-- The C entry point `fresco_encoder_create`. The argument `encoder` is the
out-pointer (`none` when null, `some h` when it points at a caller variable
holding the handle `h`, itself `none` when null); `new_ok` tells whether
`new fresco::EncoderImpl()` obtains its storage, a `std::bad_alloc` otherwise
being caught and turned into `FRESCO_ERROR_OUT_OF_MEMORY` before `*encoder` is
assigned. -/
def fresco_encoder_create (new_ok : Bool) (encoder : Option (Option EncoderImpl)) :
    fresco_error_t × Option (Option EncoderImpl) :=
  match encoder with
  | none => (FRESCO_ERROR_INVALID_PARAMETER, none)
  | some _ =>
    if new_ok then (FRESCO_OK, some (some EncoderImpl.ctor))
    else (FRESCO_ERROR_OUT_OF_MEMORY, encoder)

/-- The C entry point `fresco_decoder_create`, as `fresco_encoder_create`. -/
def fresco_decoder_create (new_ok : Bool) (decoder : Option (Option DecoderImpl)) :
    fresco_error_t × Option (Option DecoderImpl) :=
  match decoder with
  | none => (FRESCO_ERROR_INVALID_PARAMETER, none)
  | some _ =>
    if new_ok then (FRESCO_OK, some (some DecoderImpl.ctor))
    else (FRESCO_ERROR_OUT_OF_MEMORY, decoder)

/-! ## Error strings (`utils.cpp`) -/

/-- The integer value of each enumerator of `fresco_error_t`: `FRESCO_OK = 0`
and the following ones count up from it. -/
def fresco_error_t.value : fresco_error_t → Int
  | FRESCO_OK => 0
  | FRESCO_ERROR_INVALID_PARAMETER => 1
  | FRESCO_ERROR_OUT_OF_MEMORY => 2
  | FRESCO_ERROR_IO => 3
  | FRESCO_ERROR_UNSUPPORTED_FORMAT => 4
  | FRESCO_ERROR_CORRUPTED_DATA => 5
  | FRESCO_ERROR_ENCODING_FAILED => 6
  | FRESCO_ERROR_DECODING_FAILED => 7
  | FRESCO_ERROR_NOT_IMPLEMENTED => 8

/-- The function `fresco_error_string` of `utils.cpp`. The argument is the
integer held by the `fresco_error_t` object, which a C caller can set to any
value; the `switch` compares it with each enumerator and falls to `default`
otherwise. The result is the string literal returned. -/
def fresco_error_string (error : Int) : String :=
  if error = FRESCO_OK.value then "Operation completed successfully"
  else if error = FRESCO_ERROR_INVALID_PARAMETER.value then "Invalid parameter provided"
  else if error = FRESCO_ERROR_OUT_OF_MEMORY.value then "Memory allocation failed"
  else if error = fresco_error_t.value FRESCO_ERROR_IO then "Input/output error"
  else if error = FRESCO_ERROR_UNSUPPORTED_FORMAT.value then "Unsupported image format"
  else if error = FRESCO_ERROR_CORRUPTED_DATA.value then "Corrupted or invalid data"
  else if error = FRESCO_ERROR_ENCODING_FAILED.value then "Encoding operation failed"
  else if error = FRESCO_ERROR_DECODING_FAILED.value then "Decoding operation failed"
  else if error = FRESCO_ERROR_NOT_IMPLEMENTED.value then "Feature not yet implemented"
  else "Unknown error"

/-! ## Sequences of calls on one encoder handle -/

/-- One call a client makes on an encoder handle: `fresco_encoder_set_params`
with its parameter pointer, or `fresco_encoder_encode` with its arguments and
the heap behaviour it meets. -/
inductive EncoderCall
  | set_params (params : Option fresco_encode_params_t)
  | encode (heap : Heap) (input_data : Option Buffer) (output_data : Option (Option Buffer))
      (output_size : Option Nat)

/-- The encoder object after one call on it. -/
def EncoderImpl.call (self : EncoderImpl) : EncoderCall → EncoderImpl
  | .set_params params => (self.set_params params).2
  | .encode heap input_data output_data output_size =>
    (self.encode heap input_data output_data output_size).self

/-- The encoder object after a sequence of calls, first call first. -/
def EncoderImpl.run (self : EncoderImpl) (calls : List EncoderCall) : EncoderImpl :=
  calls.foldl EncoderImpl.call self

/-- The parameter set the specification says an encoder holds after a sequence
of calls: that of the last `set_params` call whose set is non-null with quality
in 1..100 and effort in 1..10, or the initial set `init` when there is none;
`encode` calls do not count. -/
def last_accepted_params (init : fresco_encode_params_t) : List EncoderCall → fresco_encode_params_t
  | [] => init
  | .set_params (some p) :: calls =>
    if 1 ≤ p.quality ∧ p.quality ≤ 100 ∧ 1 ≤ p.effort ∧ p.effort ≤ 10 then
      last_accepted_params p calls
    else last_accepted_params init calls
  | .set_params none :: calls => last_accepted_params init calls
  | .encode _ _ _ _ :: calls => last_accepted_params init calls

/-! ## Version reporting (`fresco.h`, `utils.cpp`) -/

/-- The macro `FRESCO_VERSION_MAJOR`. -/
def FRESCO_VERSION_MAJOR : Int := 0

/-- The macro `FRESCO_VERSION_MINOR`. -/
def FRESCO_VERSION_MINOR : Int := 1

/-- The macro `FRESCO_VERSION_PATCH`. -/
def FRESCO_VERSION_PATCH : Int := 0

/-- The macro `FRESCO_VERSION_STRING`. -/
def FRESCO_VERSION_STRING : String := "0.1.0"

/-- The function `fresco_get_version`: each argument is an `int*` out-pointer
(`none` when null, otherwise the value its target holds); the result carries the
status and what the three targets hold afterwards. -/
def fresco_get_version (major minor patch : Option Int) :
    fresco_error_t × Option Int × Option Int × Option Int :=
  match major, minor, patch with
  | some _, some _, some _ =>
    (FRESCO_OK, some FRESCO_VERSION_MAJOR, some FRESCO_VERSION_MINOR, some FRESCO_VERSION_PATCH)
  | _, _, _ => (FRESCO_ERROR_INVALID_PARAMETER, major, minor, patch)

/-- The function `fresco_get_version_string`. -/
def fresco_get_version_string : String := FRESCO_VERSION_STRING

/-! ## `tools/fresco-cli.cpp` -/

/-- What the command-line tool meets outside the library: `files name` is the
content `read_file` obtains from `name` (`none` when the file cannot be opened or
read), `write_ok name` tells whether `write_file` to `name` succeeds, `heap` and
`new_ok` are the allocation behaviour. Text printed to the standard streams is
not part of the model. -/
structure CliEnv where
  files : String → Option Buffer
  write_ok : String → Bool
  heap : Heap
  new_ok : Bool

/-- The character class `isspace` of the C locale. -/
def isspace (c : Char) : Bool := c.toNat = 32 || (9 ≤ c.toNat && c.toNat ≤ 13)

/-- The call `std::stoi(str)` in base 10: leading white space is skipped, an
optional sign and the longest run of decimal digits are read, and what follows is
ignored. `none` stands for the exception thrown when there is no digit
(`std::invalid_argument`) or the value does not fit `int`
(`std::out_of_range`). -/
def stoi (str : String) : Option Int :=
  let cs := str.toList.dropWhile isspace
  let negative := cs.head? = some '-'
  let ds := if cs.head? = some '-' ∨ cs.head? = some '+' then cs.tail else cs
  let digits := ds.takeWhile Char.isDigit
  if digits = [] then none else
  let magnitude : Nat := digits.foldl (fun acc c => 10 * acc + (c.toNat - 48)) 0
  let value : Int := if negative then - (magnitude : Int) else (magnitude : Int)
  if value < -(2 ^ 31) ∨ 2 ^ 31 - 1 < value then none else some value

/-- Conversion of an `int` to `uint8_t` on assignment: reduction modulo 256. -/
def to_uint8 (v : Int) : Nat := (v % 256).toNat

/-- Conversion of an `int` to `uint32_t` on assignment: reduction modulo 2^32. -/
def to_uint32 (v : Int) : Nat := (v % 2 ^ 32).toNat

/-- The option loop of `encode_command` over `args[2..]`, starting from the
parameters accumulated so far. The list is `args[i..]`; `taken` tells that
`args[i]` was already consumed as the value of the option before it (the `++i`
of the source). An option that takes a value does so when a next argument exists
(`i + 1 < args.size()`); an argument matching no branch is skipped. `none` is an
exception thrown by `std::stoi`. -/
def parse_encode_options : List String → Bool → fresco_encode_params_t → Option fresco_encode_params_t
  | [], _, params => some params
  | arg :: rest, taken, params =>
    if taken then parse_encode_options rest false params
    else if arg = "--quality" ∧ rest ≠ [] then
      match stoi (rest.headD "") with
      | none => none
      | some v => parse_encode_options rest true { params with quality := to_uint8 v }
    else if arg = "--effort" ∧ rest ≠ [] then
      match stoi (rest.headD "") with
      | none => none
      | some v => parse_encode_options rest true { params with effort := to_uint8 v }
    else if arg = "--lossless" then
      parse_encode_options rest false { params with mode := FRESCO_COMPRESSION_LOSSLESS }
    else if arg = "--lossy" then
      parse_encode_options rest false { params with mode := FRESCO_COMPRESSION_LOSSY }
    else if arg = "--tile-size" ∧ rest ≠ [] then
      match stoi (rest.headD "") with
      | none => none
      | some v => parse_encode_options rest true { params with tile_size := to_uint32 v }
    else if arg = "--threads" ∧ rest ≠ [] then
      match stoi (rest.headD "") with
      | none => none
      | some v => parse_encode_options rest true { params with max_threads := to_uint32 v }
    else parse_encode_options rest false params

/-- The option loop of `decode_command` over `args[2..]`, as
`parse_encode_options`. -/
def parse_decode_options : List String → Bool → fresco_decode_params_t → Option fresco_decode_params_t
  | [], _, params => some params
  | arg :: rest, taken, params =>
    if taken then parse_decode_options rest false params
    else if arg = "--threads" ∧ rest ≠ [] then
      match stoi (rest.headD "") with
      | none => none
      | some v => parse_decode_options rest true { params with max_threads := to_uint32 v }
    else if arg = "--progressive" then
      parse_decode_options rest false { params with enable_progressive := 1 }
    else parse_decode_options rest false params

/-- The function `read_file`: status and the vector it filled; `none` when
`data.resize` throws. -/
def read_file (env : CliEnv) (filename : String) : Option (fresco_error_t × Buffer) :=
  match env.files filename with
  | none => some ( FRESCO_ERROR_IO, [])
  | some content => (vector_assign env.heap content).map (fun data => (FRESCO_OK, data))

/-- The function `write_file`. -/
def write_file (env : CliEnv) (filename : String) (_data : Buffer) : fresco_error_t :=
  if env.write_ok filename then FRESCO_OK else FRESCO_ERROR_IO

/-- The pointer `v.data()` of a `std::vector<uint8_t>` with its size: null for a
vector that never obtained storage, which is the case of an empty one here. -/
def vector_data (v : Buffer) : Option Buffer := if v = [] then none else some v

/-- What a command leaves behind: its status and the file it wrote, if any. -/
structure CommandResult where
  status : fresco_error_t
  written : Option (String × Buffer)
  deriving DecidableEq

/-- The function `encode_command`; `none` is an exception leaving the function
(from `std::stoi` or a vector). -/
def encode_command (env : CliEnv) (args : List String) : Option CommandResult :=
  match args with
  | input_file :: output_file :: options =>
    match parse_encode_options options false
        { mode := FRESCO_COMPRESSION_LOSSY, quality := 85, effort := 5, max_threads := 0,
          tile_size := 256, enable_animation := 0, enable_3d := 0, enable_vector := 0 } with
    | none => none
    | some params =>
      match read_file env input_file with
      | none => none
      | some (result, input_data) =>
        if result ≠ FRESCO_OK then some ⟨result, none⟩ else
        let created := fresco_encoder_create env.new_ok (some none)
        if created.1 ≠ FRESCO_OK then some ⟨created.1, none⟩ else
        let encoder := created.2.join
        let set := fresco_encoder_set_params encoder (some params)
        if set.1 ≠ FRESCO_OK then some ⟨set.1, none⟩ else
        let r := fresco_encoder_encode set.2 env.heap (vector_data input_data) (some none) (some 0)
        if r.status ≠ FRESCO_OK then some ⟨r.status, none⟩ else
        match vector_assign env.heap (r.output_data.join.getD []) with
        | none => none
        | some output_vector =>
          let result := write_file env output_file output_vector
          if result ≠ FRESCO_OK then some ⟨result, none⟩
          else some ⟨FRESCO_OK, some (output_file, output_vector)⟩
  | _ => some ⟨FRESCO_ERROR_INVALID_PARAMETER, none⟩

/-- The function `decode_command`. -/
def decode_command (env : CliEnv) (args : List String) : Option CommandResult :=
  match args with
  | input_file :: output_file :: options =>
    match parse_decode_options options false
        { max_threads := 0, enable_progressive := 0, enable_metadata := 0 } with
    | none => none
    | some params =>
      match read_file env input_file with
      | none => none
      | some (result, input_data) =>
        if result ≠ FRESCO_OK then some ⟨result, none⟩ else
        let created := fresco_decoder_create env.new_ok (some none)
        if created.1 ≠ FRESCO_OK then some ⟨created.1, none⟩ else
        let decoder := created.2.join
        let set := fresco_decoder_set_params decoder (some params)
        if set.1 ≠ FRESCO_OK then some ⟨set.1, none⟩ else
        let r := fresco_decoder_decode set.2 env.heap (vector_data input_data) (some none) (some 0)
        if r.status ≠ FRESCO_OK then some ⟨r.status, none⟩ else
        match vector_assign env.heap (r.output_data.join.getD []) with
        | none => none
        | some output_vector =>
          let result := write_file env output_file output_vector
          if result ≠ FRESCO_OK then some ⟨result, none⟩
          else some ⟨FRESCO_OK, some (output_file, output_vector)⟩
  | _ => some ⟨FRESCO_ERROR_INVALID_PARAMETER, none⟩

/-- The function `info_command`; its `fresco_metadata_t` is an uninitialised
local, whose prior content `fresco_get_metadata` never reads. -/
def info_command (env : CliEnv) (args : List String) : Option CommandResult :=
  match args with
  | [] => some ⟨FRESCO_ERROR_INVALID_PARAMETER, none⟩
  | input_file :: _ =>
    match read_file env input_file with
    | none => none
    | some (result, input_data) =>
      if result ≠ FRESCO_OK then some ⟨result, none⟩ else
      let got := fresco_get_metadata (vector_data input_data)
        (some ⟨0, 0, 0, 0, FRESCO_COLORSPACE_RGB, 0, 0, 0, 0⟩)
      if got.1 ≠ FRESCO_OK then some ⟨got.1, none⟩ else some ⟨FRESCO_OK, none⟩

/-- The function `main` on `argv` (program name first): the exit code and the
file written, or `none` when an exception leaves `main` and the process is
terminated. -/
def main (env : CliEnv) (argv : List String) : Option (Int × Option (String × Buffer)) :=
  match argv with
  | _ :: command :: args =>
    if command = "version" then some (0, none)
    else if command = "help" ∨ command = "--help" then some (0, none)
    else
      let run : Option (Option CommandResult) :=
        if command = "encode" then some (encode_command env args)
        else if command = "decode" then some (decode_command env args)
        else if command = "convert" then some (encode_command env args)
        else if command = "info" then some (info_command env args)
        else none
      match run with
      | none => some (1, none)
      | some none => none
      | some (some result) =>
        if result.status ≠ FRESCO_OK then some (1, result.written) else some (0, result.written)
  | _ => some (1, none)

/-! ## The fixture of `tests/test_basic.cpp` -/

/-- The 8x8 RGB image built by `FrescoBasicTest::SetUp`: 192 bytes, each pixel
`i` holding `i % 256` in its three channels. -/
def test_image_ : Buffer :=
  (List.range (8 * 8 * 3)).map (fun i => Fin.ofNat ((i / 3) % 256))

/-- A caller-side `fresco_metadata_t` before any call filled it (all zero, as
after `fresco_metadata_t m = {}`). -/
def metadata_zero : fresco_metadata_t :=
  { width := 0
    height := 0
    channels := 0
    bit_depth := 0
    colorspace := FRESCO_COLORSPACE_RGB
    frame_count := 0
    frame_rate := 0
    file_size := 0
    compressed_size := 0 }

/-- An environment for the command-line tool in which `in.raw` is a readable
six-byte file, every other file is unreadable, every write succeeds and no
allocation fails. -/
def sample_env : CliEnv :=
  { files := fun name => if name = "in.raw" then some [1, 2, 3, 4, 5, 6] else none
    write_ok := fun _ => true
    heap := Heap.unbounded
    new_ok := true }

/-! ## Basic facts about the embedding -/

set_option maxRecDepth 20000

/-- With enough fuel `isqrt` is the integer floor square root. -/
theorem isqrt_eq (k : Nat) : ∀ n : Nat, n < 4 ^ k → isqrt k n = Nat.sqrt n := by
  induction k with
  | zero =>
    intro n h
    have hn : n = 0 := by simpa using h
    subst hn
    simp [isqrt]
  | succ k ih =>
    intro n h
    have h4 : n / 4 < 4 ^ k := by
      rw [Nat.div_lt_iff_lt_mul (by decide)]
      rw [pow_succ] at h
      exact h
    simp only [isqrt, ih (n / 4) h4]
    have h1 : Nat.sqrt (n / 4) * Nat.sqrt (n / 4) ≤ n / 4 := Nat.sqrt_le _
    have h2 : n / 4 < (Nat.sqrt (n / 4) + 1) * (Nat.sqrt (n / 4) + 1) := Nat.lt_succ_sqrt _
    generalize Nat.sqrt (n / 4) = a at h1 h2
    have e1 : (2 * a + 1) * (2 * a + 1) = 4 * (a * a) + 4 * a + 1 := by ring
    have e2 : (2 * a + 1 + 1) * (2 * a + 1 + 1) = 4 * (a * a) + 8 * a + 4 := by ring
    have e3 : (a + 1) * (a + 1) = a * a + 2 * a + 1 := by ring
    have e4 : (2 * a) * (2 * a) = 4 * (a * a) := by ring
    split_ifs with hc
    · apply Nat.eq_sqrt.2
      exact ⟨hc, by omega⟩
    · apply Nat.eq_sqrt.2
      exact ⟨by omega, by omega⟩

/-- Zero has no binary digit. -/
theorem bit_length_zero (k : Nat) : bit_length k 0 = 0 := by
  cases k <;> simp [bit_length]

/-- With enough fuel `bit_length n` is the number of binary digits of `n`. -/
theorem bit_length_spec (k : Nat) : ∀ n : Nat, n < 2 ^ k →
    n < 2 ^ bit_length k n ∧ (n ≠ 0 → 2 ^ (bit_length k n - 1) ≤ n) := by
  induction k with
  | zero =>
    intro n h
    have hn : n = 0 := by simpa using h
    subst hn
    simp [bit_length]
  | succ k ih =>
    intro n h
    by_cases hn : n = 0
    · subst hn
      simp [bit_length]
    · have h2 : n / 2 < 2 ^ k := by
        rw [Nat.div_lt_iff_lt_mul (by decide)]
        rw [pow_succ] at h
        exact h
      obtain ⟨ha, hb⟩ := ih (n / 2) h2
      simp only [bit_length, if_neg hn, Nat.add_sub_cancel]
      refine ⟨?_, fun _ => ?_⟩
      · rw [pow_succ]
        omega
      · by_cases hz : n / 2 = 0
        · rw [hz, bit_length_zero]
          simp
          omega
        · have hb' := hb hz
          have hpos : 0 < bit_length k (n / 2) := by
            rcases Nat.eq_zero_or_pos (bit_length k (n / 2)) with h0 | h0
            · rw [h0] at ha
              omega
            · exact h0
          have : bit_length k (n / 2) = (bit_length k (n / 2) - 1) + 1 := by omega
          rw [this, pow_succ]
          omega

/-- Powers of four are squares of powers of two. -/
theorem four_pow (t : Nat) : (4 : Nat) ^ t = 2 ^ t * 2 ^ t := by
  rw [← Nat.mul_pow]

/-- Scaling the radicand by `T * T` scales the floor root by `T`, up to the
fractional digits gained. -/
theorem sqrt_scaled_bounds (d T : Nat) (hT : 0 < T) :
    Nat.sqrt d * T ≤ Nat.sqrt (d * (T * T)) ∧
      Nat.sqrt (d * (T * T)) < (Nat.sqrt d + 1) * T := by
  constructor
  · rw [Nat.le_sqrt]
    calc Nat.sqrt d * T * (Nat.sqrt d * T) = (Nat.sqrt d * Nat.sqrt d) * (T * T) := by ring
      _ ≤ d * (T * T) := Nat.mul_le_mul_right _ (Nat.sqrt_le d)
  · rw [Nat.sqrt_lt]
    calc d * (T * T) < ((Nat.sqrt d + 1) * (Nat.sqrt d + 1)) * (T * T) :=
          Nat.mul_lt_mul_of_pos_right (Nat.lt_succ_sqrt d) (Nat.mul_pos hT hT)
      _ = (Nat.sqrt d + 1) * T * ((Nat.sqrt d + 1) * T) := by ring

/-- The scaled radicand stays within the fuel of `isqrt`. -/
theorem scaled_lt (d t : Nat) (hd : d < 4 ^ 64) (ht : t ≤ 52) : d * 4 ^ t < 4 ^ 128 := by
  calc d * 4 ^ t ≤ d * 4 ^ 52 := Nat.mul_le_mul_left _ (Nat.pow_le_pow_right (by decide) ht)
    _ < 4 ^ 64 * 4 ^ 52 := Nat.mul_lt_mul_of_pos_right hd (by positivity)
    _ ≤ 4 ^ 128 := by norm_num

/-- The truncated `double` root is the floor root or its successor. -/
theorem sqrt_double_truncated_bounds (d : Nat) (hd : d < 4 ^ 64) :
    Nat.sqrt d ≤ sqrt_double_truncated d ∧ sqrt_double_truncated d ≤ Nat.sqrt d + 1 := by
  by_cases h0 : d = 0
  · subst h0
    simp [sqrt_double_truncated]
  · unfold sqrt_double_truncated
    simp only [if_neg h0]
    have ht : 52 - (bit_length 64 (isqrt 64 d) - 1) ≤ 52 := Nat.sub_le _ _
    generalize 52 - (bit_length 64 (isqrt 64 d) - 1) = t at ht
    rw [isqrt_eq 128 _ (scaled_lt d t hd ht), four_pow]
    have hT : 0 < 2 ^ t := by positivity
    generalize 2 ^ t = T at hT
    obtain ⟨ha, hb⟩ := sqrt_scaled_bounds d T hT
    generalize Nat.sqrt (d * (T * T)) = q at ha hb
    generalize Nat.sqrt d = r at ha hb
    have e1 : (r + 2) * T = (r + 1) * T + T := by ring
    have e2 : (r + 1) * T = r * T + T := by ring
    split_ifs
    · constructor
      · rw [Nat.le_div_iff_mul_le hT]
        omega
      · have hlt : (q + 1) / T < r + 2 := by
          rw [Nat.div_lt_iff_lt_mul hT]
          omega
        omega
    · constructor
      · rw [Nat.le_div_iff_mul_le hT]
        omega
      · have hlt : q / T < r + 2 := by
          rw [Nat.div_lt_iff_lt_mul hT]
          omega
        omega

/-- Below `2^52` the truncated `double` root is the floor root: the spacing of
the `double`s just below an integer `r + 1 ≤ 2^26` is too fine for the root of an
integer below `(r + 1)^2` to round up to `r + 1`. -/
theorem sqrt_double_truncated_exact (d : Nat) (hd : d < 2 ^ 52) :
    sqrt_double_truncated d = Nat.sqrt d := by
  by_cases h0 : d = 0
  · subst h0
    simp [sqrt_double_truncated]
  · have hd64 : d < 4 ^ 64 := lt_trans hd (by norm_num)
    have hr26 : Nat.sqrt d < 2 ^ 26 := by
      rw [Nat.sqrt_lt]
      exact lt_of_lt_of_le hd (by norm_num)
    have hrpos : 0 < Nat.sqrt d := Nat.sqrt_pos.2 (Nat.pos_of_ne_zero h0)
    have hspec := bit_length_spec 64 (Nat.sqrt d) (lt_trans hr26 (by norm_num))
    have he : bit_length 64 (Nat.sqrt d) - 1 < 26 := by
      have h1 := hspec.2 (Nat.pos_iff_ne_zero.1 hrpos)
      have h2 : 2 ^ (bit_length 64 (Nat.sqrt d) - 1) < 2 ^ 26 := lt_of_le_of_lt h1 hr26
      exact (Nat.pow_lt_pow_iff_right (by decide)).1 h2
    unfold sqrt_double_truncated
    simp only [if_neg h0]
    rw [isqrt_eq 64 d hd64]
    have ht : 52 - (bit_length 64 (Nat.sqrt d) - 1) ≤ 52 := Nat.sub_le _ _
    have ht27 : 27 ≤ 52 - (bit_length 64 (Nat.sqrt d) - 1) := by omega
    generalize 52 - (bit_length 64 (Nat.sqrt d) - 1) = t at ht ht27
    rw [isqrt_eq 128 _ (scaled_lt d t hd64 ht), four_pow]
    have hT : 0 < 2 ^ t := by positivity
    have hT27 : 2 ^ 27 ≤ 2 ^ t := Nat.pow_le_pow_right (by decide) ht27
    generalize 2 ^ t = T at hT hT27
    obtain ⟨ha, hb⟩ := sqrt_scaled_bounds d T hT
    have hdlt : d + 1 ≤ (Nat.sqrt d + 1) * (Nat.sqrt d + 1) := Nat.lt_succ_sqrt d
    generalize Nat.sqrt (d * (T * T)) = q at ha hb
    generalize Nat.sqrt d = r at ha hb hr26 hdlt
    have e2 : (r + 1) * T = r * T + T := by ring
    have hrT : r + 1 < T := by
      have : (2 : Nat) ^ 26 < 2 ^ 27 := by norm_num
      omega
    split_ifs with hround
    · apply Nat.div_eq_of_lt_le
      · omega
      · show q + 1 < (r + 1) * T
        by_contra hcon
        have hQ : q + 1 = (r + 1) * T := by omega
        have h3 : (d + 1) * (T * T) ≤ (r + 1) * (r + 1) * (T * T) := Nat.mul_le_mul_right _ hdlt
        have h4 : (r + 1) * (r + 1) * (T * T) = (q + 1) * (q + 1) := by
          rw [hQ]
          ring
        have h5 : (d + 1) * (T * T) = d * (T * T) + T * T := by ring
        have h6 : (q + 1) * (q + 1) = q * q + 2 * q + 1 := by ring
        have h7 : T * T < (r + 1) * T := by omega
        have h8 : T < r + 1 := Nat.lt_of_mul_lt_mul_right h7
        omega
    · apply Nat.div_eq_of_lt_le
      · omega
      · omega

/-- Integers below `2^53` convert to `double` exactly. -/
theorem size_t_to_double_small (n : Nat) (h : n < 2 ^ 53) : size_t_to_double n = n := by
  unfold size_t_to_double
  rw [if_pos h]

/-- Rounding to `double` does not pass the next power of two. -/
theorem size_t_to_double_le (n K : Nat) (hK : 53 ≤ K ∧ K ≤ 64) (h : n < 2 ^ K) :
    size_t_to_double n ≤ 2 ^ K := by
  by_cases h53 : n < 2 ^ 53
  · rw [size_t_to_double_small n h53]
    exact le_of_lt h
  · have h64 : n < 2 ^ 64 := lt_of_lt_of_le h (Nat.pow_le_pow_right (by decide) hK.2)
    have hn0 : n ≠ 0 := by
      intro h0
      rw [h0] at h53
      exact h53 (by positivity)
    obtain ⟨hlt, hge⟩ := bit_length_spec 64 n h64
    have hge := hge hn0
    have hbl1 : bit_length 64 n - 1 < K :=
      (Nat.pow_lt_pow_iff_right (by decide)).1 (lt_of_le_of_lt hge h)
    have hbl2 : 53 < bit_length 64 n :=
      (Nat.pow_lt_pow_iff_right (by decide)).1 (lt_of_le_of_lt (not_lt.1 h53) hlt)
    have hsplit : 2 ^ bit_length 64 n = 2 ^ 53 * 2 ^ (bit_length 64 n - 53) := by
      rw [← pow_add]
      congr 1
      omega
    have hS : 0 < 2 ^ (bit_length 64 n - 53) := by positivity
    have hq : n / 2 ^ (bit_length 64 n - 53) < 2 ^ 53 := by
      rw [Nat.div_lt_iff_lt_mul hS, ← hsplit]
      exact hlt
    have hle : 2 ^ bit_length 64 n ≤ 2 ^ K := Nat.pow_le_pow_right (by decide) (by omega)
    have hup : (n / 2 ^ (bit_length 64 n - 53) + 1) * 2 ^ (bit_length 64 n - 53)
        ≤ 2 ^ 53 * 2 ^ (bit_length 64 n - 53) := Nat.mul_le_mul_right _ hq
    have hlow : n / 2 ^ (bit_length 64 n - 53) * 2 ^ (bit_length 64 n - 53)
        ≤ (n / 2 ^ (bit_length 64 n - 53) + 1) * 2 ^ (bit_length 64 n - 53) :=
      Nat.mul_le_mul_right _ (Nat.le_succ _)
    simp only [size_t_to_double, if_neg h53]
    split_ifs
    · omega
    · omega

/-- A positive `size_t` converts to a positive `double`. -/
theorem size_t_to_double_pos (n : Nat) (hpos : 0 < n) (h64 : n < 2 ^ 64) :
    0 < size_t_to_double n := by
  by_cases h53 : n < 2 ^ 53
  · rw [size_t_to_double_small n h53]
    exact hpos
  · obtain ⟨_, hge⟩ := bit_length_spec 64 n h64
    have hge := hge (Nat.pos_iff_ne_zero.1 hpos)
    have hS : 0 < 2 ^ (bit_length 64 n - 53) := by positivity
    have hSn : 2 ^ (bit_length 64 n - 53) ≤ n :=
      le_trans (Nat.pow_le_pow_right (by decide) (by omega)) hge
    have hq : 0 < n / 2 ^ (bit_length 64 n - 53) := Nat.div_pos hSn hS
    simp only [size_t_to_double, if_neg h53]
    split_ifs
    · exact Nat.mul_pos (Nat.succ_pos _) hS
    · exact Nat.mul_pos hq hS

/-- Below `2^52` pixels the truncated `double` root is the integer floor square
root. -/
theorem sqrt_size_t_eq (p : Nat) (h : p < 2 ^ 52) : sqrt_size_t p = Nat.sqrt p := by
  unfold sqrt_size_t
  rw [size_t_to_double_small p (lt_trans h (by norm_num))]
  exact sqrt_double_truncated_exact p h

/-- For every pixel count a `size_t` buffer length can give, the computed side
fits 32 bits. -/
theorem sqrt_size_t_lt (p : Nat) (h : p < 2 ^ 63) : sqrt_size_t p < 2 ^ 32 := by
  unfold sqrt_size_t
  have hd : size_t_to_double p ≤ 2 ^ 63 := size_t_to_double_le p 63 (by decide) h
  have hb := (sqrt_double_truncated_bounds (size_t_to_double p)
    (lt_of_le_of_lt hd (by norm_num))).2
  have hr : Nat.sqrt (size_t_to_double p) < 2 ^ 32 - 1 := by
    rw [Nat.sqrt_lt]
    exact lt_of_le_of_lt hd (by norm_num)
  omega

/-- The computed side is positive exactly for a positive pixel count. -/
theorem sqrt_size_t_pos (p : Nat) (h : p < 2 ^ 63) : 0 < sqrt_size_t p ↔ 0 < p := by
  constructor
  · intro hpos
    rcases Nat.eq_zero_or_pos p with h0 | h0
    · rw [h0] at hpos
      exact absurd hpos (by decide)
    · exact h0
  · intro hpos
    unfold sqrt_size_t
    have h64 : p < 2 ^ 64 := lt_trans h (by norm_num)
    have hd : size_t_to_double p ≤ 2 ^ 63 := size_t_to_double_le p 63 (by decide) h
    have hb := (sqrt_double_truncated_bounds (size_t_to_double p)
      (lt_of_le_of_lt hd (by norm_num))).1
    have hr : 0 < Nat.sqrt (size_t_to_double p) :=
      Nat.sqrt_pos.2 (size_t_to_double_pos p hpos h64)
    omega

theorem vector_grants_of_ok {heap : Heap} {n : Nat} (h : heap.vector_ok n = true) :
    heap.vector_grants n = true := by
  simp [Heap.vector_grants, h]

theorem vector_assign_of_ok {heap : Heap} {src : Buffer} (h : heap.vector_ok src.length = true) :
    vector_assign heap src = some src := by
  simp [vector_assign, vector_grants_of_ok h]

theorem Heap.serves_iff (heap : Heap) (n : Nat) :
    heap.serves n = true ↔ heap.vector_ok n = true ∧ heap.malloc_ok n = true := by
  simp [Heap.serves]

/-- On a buffer the sniffer accepts and a heap that serves its size, `encode`
returns `FRESCO_OK` and hands out a copy of the input. -/
theorem encode_of_serves (enc : EncoderImpl) (heap : Heap) (x : Buffer) (d : Option Buffer) (s : Nat)
    (hx : x.length % 3 = 0) (hheap : heap.serves x.length = true) :
    enc.encode heap (some x) (some d) (some s) = ⟨enc, FRESCO_OK, some (some x), some x.length⟩ := by
  obtain ⟨hv, hm⟩ := (heap.serves_iff _).1 hheap
  simp [EncoderImpl.encode, parse_image_format, hx, Container.initialize, Compression.compress,
    Container.finalize, vector_assign, Heap.vector_grants, fresco_malloc, hv, hm]

/-- On a heap that serves the input size, `decode` returns `FRESCO_OK` and hands
out a copy of the input. -/
theorem decode_of_serves (dec : DecoderImpl) (heap : Heap) (y : Buffer) (d : Option Buffer) (s : Nat)
    (hheap : heap.serves y.length = true) :
    dec.decode heap (some y) (some d) (some s) = ⟨dec, FRESCO_OK, some (some y), some y.length⟩ := by
  obtain ⟨hv, hm⟩ := (heap.serves_iff _).1 hheap
  simp [DecoderImpl.decode, Container.parse, Container.extract_data, Compression.decompress,
    convert_to_output_format, vector_assign, Heap.vector_grants, fresco_malloc, hv, hm]

/-- What `encode` does on non-null arguments, as one case distinction on the
input size and the heap. -/
theorem encode_some (enc : EncoderImpl) (heap : Heap) (x : Buffer) (d : Option Buffer) (s : Nat) :
    enc.encode heap (some x) (some d) (some s) =
      if x.length % 3 ≠ 0 then ⟨enc, FRESCO_ERROR_UNSUPPORTED_FORMAT, some d, some s⟩
      else if heap.vector_grants x.length = false then
        ⟨enc, FRESCO_ERROR_ENCODING_FAILED, some d, some s⟩
      else if heap.malloc_ok x.length = false then
        ⟨enc, FRESCO_ERROR_OUT_OF_MEMORY, some none, some x.length⟩
      else ⟨enc, FRESCO_OK, some (some x), some x.length⟩ := by
  by_cases hx : x.length % 3 = 0 <;> by_cases hv : heap.vector_grants x.length = true <;>
    by_cases hm : heap.malloc_ok x.length = true <;>
    simp [EncoderImpl.encode, parse_image_format, Container.initialize, Compression.compress,
      Container.finalize, vector_assign, fresco_malloc, hx, hv, hm]

/-- With a null input buffer, output-data pointer or output-size pointer, `encode`
returns `FRESCO_ERROR_INVALID_PARAMETER` and writes nothing. -/
theorem encode_null (enc : EncoderImpl) (heap : Heap) (input : Option Buffer)
    (od : Option (Option Buffer)) (os : Option Nat)
    (h : input = none ∨ od = none ∨ os = none) :
    enc.encode heap input od os = ⟨enc, FRESCO_ERROR_INVALID_PARAMETER, od, os⟩ := by
  rcases input with _ | x <;> rcases od with _ | d <;> rcases os with _ | s <;>
    simp_all [EncoderImpl.encode]

/-- What `decode` does on non-null arguments, as one case distinction on the
heap. -/
theorem decode_some (dec : DecoderImpl) (heap : Heap) (y : Buffer) (d : Option Buffer) (s : Nat) :
    dec.decode heap (some y) (some d) (some s) =
      if heap.vector_grants y.length = false then
        ⟨dec, FRESCO_ERROR_DECODING_FAILED, some d, some s⟩
      else if heap.malloc_ok y.length = false then
        ⟨dec, FRESCO_ERROR_OUT_OF_MEMORY, some none, some y.length⟩
      else ⟨dec, FRESCO_OK, some (some y), some y.length⟩ := by
  by_cases hv : heap.vector_grants y.length = true <;>
    by_cases hm : heap.malloc_ok y.length = true <;>
    simp [DecoderImpl.decode, Container.parse, Container.extract_data, Compression.decompress,
      convert_to_output_format, vector_assign, fresco_malloc, hv, hm]

/-- With a null input buffer, output-data pointer or output-size pointer, `decode`
returns `FRESCO_ERROR_INVALID_PARAMETER` and writes nothing. -/
theorem decode_null (dec : DecoderImpl) (heap : Heap) (input : Option Buffer)
    (od : Option (Option Buffer)) (os : Option Nat)
    (h : input = none ∨ od = none ∨ os = none) :
    dec.decode heap input od os = ⟨dec, FRESCO_ERROR_INVALID_PARAMETER, od, os⟩ := by
  rcases input with _ | x <;> rcases od with _ | d <;> rcases os with _ | s <;>
    simp_all [DecoderImpl.decode]

/-- A successful `encode` had a non-null input whose length is a multiple of 3,
and its output is a copy of that input. -/
theorem encode_ok_output (enc : EncoderImpl) (heap : Heap) (input : Option Buffer)
    (od : Option (Option Buffer)) (os : Option Nat)
    (h : (enc.encode heap input od os).status = FRESCO_OK) :
    ∃ x : Buffer, input = some x ∧ x.length % 3 = 0 ∧
      (enc.encode heap input od os).output_data = some (some x) ∧
      (enc.encode heap input od os).output_size = some x.length := by
  rcases input with _ | x
  · rw [encode_null enc heap none od os (Or.inl rfl)] at h
    simp at h
  rcases od with _ | d
  · rw [encode_null enc heap (some x) none os (Or.inr (Or.inl rfl))] at h
    simp at h
  rcases os with _ | s
  · rw [encode_null enc heap (some x) (some d) none (Or.inr (Or.inr rfl))] at h
    simp at h
  rw [encode_some] at h ⊢
  by_cases hx : x.length % 3 = 0 <;> by_cases hv : heap.vector_grants x.length = true <;>
    by_cases hm : heap.malloc_ok x.length = true <;> simp [hx, hv, hm] at h ⊢

/-- The sniffer as one case distinction on the length. -/
theorem parse_image_format_eq (x : Buffer) :
    parse_image_format x =
      if x.length % 3 ≠ 0 then .error FRESCO_ERROR_UNSUPPORTED_FORMAT
      else .ok ⟨sqrt_size_t (x.length / 3) % 2 ^ 32, sqrt_size_t (x.length / 3) % 2 ^ 32, 3, 8,
        FRESCO_COLORSPACE_RGB⟩ := rfl

/-- The sniffer's result on a buffer whose length is a multiple of 3 and fits
`size_t`: a square whose side is the truncated `double` root of the pixel count,
which the `uint32_t` fields hold without loss. -/
theorem parse_image_format_ok (x : Buffer) (hx : x.length % 3 = 0) (hsize : x.length < 2 ^ 64) :
    parse_image_format x =
      .ok ⟨sqrt_size_t (x.length / 3), sqrt_size_t (x.length / 3), 3, 8, FRESCO_COLORSPACE_RGB⟩ := by
  have hs : sqrt_size_t (x.length / 3) < 2 ^ 32 := sqrt_size_t_lt _ (by omega)
  rw [parse_image_format_eq, if_neg (by simpa using hx), Nat.mod_eq_of_lt hs]

/-- The sniffer's result on a buffer of fewer than `2^52` pixels whose length is
a multiple of 3: a square whose side is the integer floor square root of the
pixel count. -/
theorem parse_image_format_ok_floor (x : Buffer) (hx : x.length % 3 = 0)
    (hpixels : x.length / 3 < 2 ^ 52) :
    parse_image_format x =
      .ok ⟨Nat.sqrt (x.length / 3), Nat.sqrt (x.length / 3), 3, 8, FRESCO_COLORSPACE_RGB⟩ := by
  rw [parse_image_format_ok x hx (by omega), sqrt_size_t_eq _ hpixels]

/-- The sniffer succeeds exactly on lengths that are multiples of 3. -/
theorem parse_image_format_error (x : Buffer) (hx : x.length % 3 ≠ 0) :
    parse_image_format x = .error FRESCO_ERROR_UNSUPPORTED_FORMAT := by
  simp [parse_image_format, hx]

/-- The method `encode` leaves the encoder object as it found it. -/
theorem encode_self (enc : EncoderImpl) (heap : Heap) (input : Option Buffer)
    (od : Option (Option Buffer)) (os : Option Nat) :
    (enc.encode heap input od os).self = enc := by
  rcases input with _ | x
  · rw [encode_null enc heap none od os (Or.inl rfl)]
  rcases od with _ | d
  · rw [encode_null enc heap (some x) none os (Or.inr (Or.inl rfl))]
  rcases os with _ | s
  · rw [encode_null enc heap (some x) (some d) none (Or.inr (Or.inr rfl))]
  rw [encode_some]
  split_ifs <;> rfl

/-- The method `decode` leaves the decoder object as it found it. -/
theorem decode_self (dec : DecoderImpl) (heap : Heap) (input : Option Buffer)
    (od : Option (Option Buffer)) (os : Option Nat) :
    (dec.decode heap input od os).self = dec := by
  rcases input with _ | x
  · rw [decode_null dec heap none od os (Or.inl rfl)]
  rcases od with _ | d
  · rw [decode_null dec heap (some x) none os (Or.inr (Or.inl rfl))]
  rcases os with _ | s
  · rw [decode_null dec heap (some x) (some d) none (Or.inr (Or.inr rfl))]
  rw [decode_some]
  split_ifs <;> rfl

/-- Status, output pointer and output size of `encode` do not depend on the
encoder's parameters. -/
theorem encode_params_irrelevant (e₁ e₂ : EncoderImpl) (heap : Heap) (input : Option Buffer)
    (od : Option (Option Buffer)) (os : Option Nat) :
    (e₁.encode heap input od os).status = (e₂.encode heap input od os).status ∧
    (e₁.encode heap input od os).output_data = (e₂.encode heap input od os).output_data ∧
    (e₁.encode heap input od os).output_size = (e₂.encode heap input od os).output_size := by
  rcases input with _ | x
  · simp [encode_null _ heap none od os (Or.inl rfl)]
  rcases od with _ | d
  · simp [encode_null _ heap (some x) none os (Or.inr (Or.inl rfl))]
  rcases os with _ | s
  · simp [encode_null _ heap (some x) (some d) none (Or.inr (Or.inr rfl))]
  simp only [encode_some]
  split_ifs <;> exact ⟨rfl, rfl, rfl⟩

/-- What `set_params` does with a non-null parameter set in range. -/
theorem set_params_accept (enc : EncoderImpl) (p : fresco_encode_params_t)
    (h : 1 ≤ p.quality ∧ p.quality ≤ 100 ∧ 1 ≤ p.effort ∧ p.effort ≤ 10) :
    enc.set_params (some p) = (FRESCO_OK, ⟨p⟩) := by
  have h1 : ¬ (p.quality < 1 ∨ p.quality > 100) := by omega
  have h2 : ¬ (p.effort < 1 ∨ p.effort > 10) := by omega
  simp only [EncoderImpl.set_params, if_neg h1, if_neg h2]

/-- What `set_params` does with a non-null parameter set out of range. -/
theorem set_params_reject (enc : EncoderImpl) (p : fresco_encode_params_t)
    (h : ¬ (1 ≤ p.quality ∧ p.quality ≤ 100 ∧ 1 ≤ p.effort ∧ p.effort ≤ 10)) :
    enc.set_params (some p) = (FRESCO_ERROR_INVALID_PARAMETER, enc) := by
  simp only [EncoderImpl.set_params]
  split_ifs with h1 h2
  · rfl
  · rfl
  · exact absurd (by omega) h

/-- The stored parameters after a sequence of calls are those the specification
names. -/
theorem run_params (calls : List EncoderCall) (enc : EncoderImpl) :
    (enc.run calls).params_ = last_accepted_params enc.params_ calls := by
  induction calls generalizing enc with
  | nil => rfl
  | cons c cs ih =>
    have hrun : enc.run (c :: cs) = (enc.call c).run cs := rfl
    rw [hrun, ih]
    cases c with
    | set_params params =>
      rcases params with _ | p
      · rfl
      · by_cases h : 1 ≤ p.quality ∧ p.quality ≤ 100 ∧ 1 ≤ p.effort ∧ p.effort ≤ 10
        · simp only [EncoderImpl.call, set_params_accept enc p h, last_accepted_params, if_pos h]
        · simp only [EncoderImpl.call, set_params_reject enc p h, last_accepted_params, if_neg h]
    | encode heap input od os =>
      simp only [EncoderImpl.call, encode_self, last_accepted_params]

/-- One call keeps the stored quality and effort within their ranges. -/
theorem call_preserves_range (enc : EncoderImpl) (c : EncoderCall)
    (h : 1 ≤ enc.params_.quality ∧ enc.params_.quality ≤ 100 ∧
      1 ≤ enc.params_.effort ∧ enc.params_.effort ≤ 10) :
    1 ≤ (enc.call c).params_.quality ∧ (enc.call c).params_.quality ≤ 100 ∧
      1 ≤ (enc.call c).params_.effort ∧ (enc.call c).params_.effort ≤ 10 := by
  cases c with
  | set_params params =>
    rcases params with _ | p
    · exact h
    · by_cases hp : 1 ≤ p.quality ∧ p.quality ≤ 100 ∧ 1 ≤ p.effort ∧ p.effort ≤ 10
      · simp only [EncoderImpl.call, set_params_accept enc p hp]
        exact hp
      · simp only [EncoderImpl.call, set_params_reject enc p hp]
        exact h
  | encode heap input od os =>
    simp only [EncoderImpl.call, encode_self]
    exact h

/-- A sequence of calls keeps the stored quality and effort within their
ranges. -/
theorem run_preserves_range (calls : List EncoderCall) (enc : EncoderImpl)
    (h : 1 ≤ enc.params_.quality ∧ enc.params_.quality ≤ 100 ∧
      1 ≤ enc.params_.effort ∧ enc.params_.effort ≤ 10) :
    1 ≤ (enc.run calls).params_.quality ∧ (enc.run calls).params_.quality ≤ 100 ∧
      1 ≤ (enc.run calls).params_.effort ∧ (enc.run calls).params_.effort ≤ 10 := by
  induction calls generalizing enc with
  | nil => exact h
  | cons c cs ih =>
    have hrun : enc.run (c :: cs) = (enc.call c).run cs := rfl
    rw [hrun]
    exact ih (enc.call c) (call_preserves_range enc c h)

/-! ## C1: lossless round trip -/

/-- C1: for every encoder in lossless mode (whatever its tile size, thread count,
quality and effort), every decoder and every input buffer the sniffer accepts
(length a multiple of 3), with heaps that serve the buffer size, `encode`
returns `FRESCO_OK` with a container `c`, `decode` of `c` returns `FRESCO_OK`,
and the decoded bytes and size are exactly those of the input. -/
theorem lossless_round_trip (enc : EncoderImpl) (dec : DecoderImpl) (heap_e heap_d : Heap)
    (x : Buffer) (d : Option Buffer) (s : Nat) (d' : Option Buffer) (s' : Nat)
    (_hmode : enc.params_.mode = FRESCO_COMPRESSION_LOSSLESS)
    (hx : x.length % 3 = 0)
    (he : heap_e.serves x.length = true) (hd : heap_d.serves x.length = true) :
    ∃ c : Buffer,
      enc.encode heap_e (some x) (some d) (some s) = ⟨enc, FRESCO_OK, some (some c), some c.length⟩ ∧
      dec.decode heap_d (some c) (some d') (some s') = ⟨dec, FRESCO_OK, some (some x), some x.length⟩ :=
  ⟨x, encode_of_serves enc heap_e x d s hx he, decode_of_serves dec heap_d x d' s' hd⟩

/-- Witness of C1: the test fixture image, encoded by a lossless encoder with
tile size 64 and 8 threads and decoded by a default decoder. -/
theorem lossless_round_trip_witness :
    ∃ c : Buffer,
      EncoderImpl.encode ⟨⟨FRESCO_COMPRESSION_LOSSLESS, 85, 5, 8, 64, 0, 0, 0⟩⟩ Heap.unbounded
          (some test_image_) (some none) (some 0)
        = ⟨⟨⟨FRESCO_COMPRESSION_LOSSLESS, 85, 5, 8, 64, 0, 0, 0⟩⟩, FRESCO_OK, some (some c), some c.length⟩ ∧
      DecoderImpl.ctor.decode Heap.unbounded (some c) (some none) (some 0)
        = ⟨DecoderImpl.ctor, FRESCO_OK, some (some test_image_), some test_image_.length⟩ :=
  lossless_round_trip ⟨⟨FRESCO_COMPRESSION_LOSSLESS, 85, 5, 8, 64, 0, 0, 0⟩⟩ DecoderImpl.ctor
    Heap.unbounded Heap.unbounded test_image_ none 0 none 0 rfl (by decide) (by decide) (by decide)

/-! ## C2: parameter validation -/

/-- C2: for every encoder and every non-null parameter set `p`,
`fresco_encoder_set_params` returns `FRESCO_OK` exactly when
`1 ≤ quality ≤ 100` and `1 ≤ effort ≤ 10`, and
`FRESCO_ERROR_INVALID_PARAMETER` exactly otherwise, whatever the other fields;
quality 0 and 101 and effort 0 and 11 are rejected, and the corner values
quality 1 or 100 with effort 1 or 10 are accepted. -/
theorem set_params_inclusive_bounds (enc : EncoderImpl) (p : fresco_encode_params_t) :
    ((fresco_encoder_set_params (some enc) (some p)).1 = FRESCO_OK ↔
        (1 ≤ p.quality ∧ p.quality ≤ 100) ∧ (1 ≤ p.effort ∧ p.effort ≤ 10)) ∧
    ((fresco_encoder_set_params (some enc) (some p)).1 = FRESCO_ERROR_INVALID_PARAMETER ↔
        ¬ ((1 ≤ p.quality ∧ p.quality ≤ 100) ∧ (1 ≤ p.effort ∧ p.effort ≤ 10))) ∧
    (fresco_encoder_set_params (some enc) (some { p with quality := 0 })).1
        = FRESCO_ERROR_INVALID_PARAMETER ∧
    (fresco_encoder_set_params (some enc) (some { p with quality := 101 })).1
        = FRESCO_ERROR_INVALID_PARAMETER ∧
    (fresco_encoder_set_params (some enc) (some { p with effort := 0 })).1
        = FRESCO_ERROR_INVALID_PARAMETER ∧
    (fresco_encoder_set_params (some enc) (some { p with effort := 11 })).1
        = FRESCO_ERROR_INVALID_PARAMETER ∧
    (fresco_encoder_set_params (some enc) (some { p with quality := 1, effort := 1 })).1 = FRESCO_OK ∧
    (fresco_encoder_set_params (some enc) (some { p with quality := 1, effort := 10 })).1 = FRESCO_OK ∧
    (fresco_encoder_set_params (some enc) (some { p with quality := 100, effort := 1 })).1 = FRESCO_OK ∧
    (fresco_encoder_set_params (some enc) (some { p with quality := 100, effort := 10 })).1 = FRESCO_OK := by
  refine ⟨?_, ?_, ?_, ?_, ?_, ?_, ?_, ?_, ?_, ?_⟩
  · simp only [fresco_encoder_set_params, EncoderImpl.set_params]
    split_ifs with h1 h2 <;> simp <;> omega
  · simp only [fresco_encoder_set_params, EncoderImpl.set_params]
    split_ifs with h1 h2 <;> simp <;> omega
  · simp [fresco_encoder_set_params, EncoderImpl.set_params]
  · simp [fresco_encoder_set_params, EncoderImpl.set_params]
  · simp only [fresco_encoder_set_params, EncoderImpl.set_params]
    split_ifs <;> simp_all
  · simp only [fresco_encoder_set_params, EncoderImpl.set_params]
    split_ifs <;> simp_all
  · simp [fresco_encoder_set_params, EncoderImpl.set_params]
  · simp [fresco_encoder_set_params, EncoderImpl.set_params]
  · simp [fresco_encoder_set_params, EncoderImpl.set_params]
  · simp [fresco_encoder_set_params, EncoderImpl.set_params]

/-! ## C3: metadata of an encoded image -/

/-- C3, counterexample: the 192-byte 8x8 RGB test image is sniffed as 8 x 8 x 3
and encodes successfully, yet `fresco_get_metadata` on the encoded container
reports width 1920 and height 1080, not 8 and 8. -/
theorem metadata_not_source_geometry :
    ∃ (info : ImageInfo) (c : Buffer) (md : fresco_metadata_t),
      parse_image_format test_image_ = .ok info ∧
      EncoderImpl.ctor.encode Heap.unbounded (some test_image_) (some none) (some 0)
        = ⟨EncoderImpl.ctor, FRESCO_OK, some (some c), some c.length⟩ ∧
      fresco_get_metadata (some c) (some metadata_zero) = (FRESCO_OK, some md) ∧
      (info.width, info.height, info.channels) = (8, 8, 3) ∧
      (md.width, md.height, md.channels) = (1920, 1080, 3) ∧
      md.width ≠ info.width ∧ md.height ≠ info.height :=
  ⟨⟨8, 8, 3, 8, FRESCO_COLORSPACE_RGB⟩, test_image_,
    ⟨1920, 1080, 3, 8, FRESCO_COLORSPACE_RGB, 1, 0, 192, 192⟩,
    by decide, by decide, by decide, by decide, by decide, by decide, by decide⟩

/-- C3, amended: for every input the sniffer accepts (heap serving its size),
`encode` succeeds with a container `c` and `fresco_get_metadata` on `c` succeeds
and reports the fixed values width 1920, height 1080 and channels 3, whatever the
input; the channel count equals the sniffer's, while the sniffer's geometry is
always square, so the reported width and height never both equal it. -/
theorem metadata_of_encoded_is_default (enc : EncoderImpl) (heap : Heap) (x : Buffer)
    (d : Option Buffer) (s : Nat) (m0 : fresco_metadata_t)
    (hx : x.length % 3 = 0) (hheap : heap.serves x.length = true) :
    ∃ (info : ImageInfo) (c : Buffer) (md : fresco_metadata_t),
      parse_image_format x = .ok info ∧
      enc.encode heap (some x) (some d) (some s) = ⟨enc, FRESCO_OK, some (some c), some c.length⟩ ∧
      fresco_get_metadata (some c) (some m0) = (FRESCO_OK, some md) ∧
      md.width = 1920 ∧ md.height = 1080 ∧ md.channels = 3 ∧
      md.channels = info.channels ∧ info.width = info.height ∧
      (md.width, md.height) ≠ (info.width, info.height) := by
  refine ⟨⟨sqrt_size_t (x.length / 3) % 2 ^ 32, sqrt_size_t (x.length / 3) % 2 ^ 32, 3, 8,
      FRESCO_COLORSPACE_RGB⟩, x,
    ⟨1920, 1080, 3, 8, FRESCO_COLORSPACE_RGB, 1, 0, x.length, x.length⟩, ?_, ?_, ?_, rfl, rfl, rfl,
    rfl, rfl, ?_⟩
  · simp [parse_image_format, hx]
  · exact encode_of_serves enc heap x d s hx hheap
  · simp [fresco_get_metadata, DecoderImpl.get_metadata, Container.parse_header, Container.parse]
  · intro h
    simp only [Prod.mk.injEq] at h
    omega

/-- Witness of the amended C3 on the test fixture image. -/
theorem metadata_of_encoded_is_default_witness :
    ∃ (info : ImageInfo) (c : Buffer) (md : fresco_metadata_t),
      parse_image_format test_image_ = .ok info ∧
      EncoderImpl.ctor.encode Heap.unbounded (some test_image_) (some none) (some 0)
        = ⟨EncoderImpl.ctor, FRESCO_OK, some (some c), some c.length⟩ ∧
      fresco_get_metadata (some c) (some metadata_zero) = (FRESCO_OK, some md) ∧
      md.width = 1920 ∧ md.height = 1080 ∧ md.channels = 3 ∧
      md.channels = info.channels ∧ info.width = info.height ∧
      (md.width, md.height) ≠ (info.width, info.height) :=
  metadata_of_encoded_is_default EncoderImpl.ctor Heap.unbounded test_image_ none 0 metadata_zero
    (by decide) (by decide)

/-! ## C4: truncated containers -/

/-- C4, counterexample: the container of the test image with its last byte
removed (191 of 192 bytes) is decoded with `FRESCO_OK`, not
`FRESCO_ERROR_CORRUPTED_DATA`, and the 191 truncated bytes are returned as pixel
data. -/
theorem truncated_container_is_decoded :
    ∃ c : Buffer,
      EncoderImpl.ctor.encode Heap.unbounded (some test_image_) (some none) (some 0)
        = ⟨EncoderImpl.ctor, FRESCO_OK, some (some c), some c.length⟩ ∧
      (0 < 1 ∧ 1 ≤ c.length) ∧
      (DecoderImpl.ctor.decode Heap.unbounded (some (c.take (c.length - 1))) (some none) (some 0)).status
        = FRESCO_OK ∧
      (DecoderImpl.ctor.decode Heap.unbounded (some (c.take (c.length - 1))) (some none) (some 0)).status
        ≠ FRESCO_ERROR_CORRUPTED_DATA ∧
      (DecoderImpl.ctor.decode Heap.unbounded (some (c.take (c.length - 1))) (some none) (some 0)).output_data
        = some (some (test_image_.take 191)) ∧
      (DecoderImpl.ctor.decode Heap.unbounded (some (c.take (c.length - 1))) (some none) (some 0)).output_size
        = some 191 :=
  ⟨test_image_, by decide, by decide, by decide, by decide, by decide, by decide⟩

/-- On every input and every heap, `decode` returns one of four codes, and
`FRESCO_ERROR_CORRUPTED_DATA` is not among them. -/
theorem decode_status_cases (dec : DecoderImpl) (heap : Heap) (input : Option Buffer)
    (od : Option (Option Buffer)) (os : Option Nat) :
    (dec.decode heap input od os).status = FRESCO_OK ∨
    (dec.decode heap input od os).status = FRESCO_ERROR_INVALID_PARAMETER ∨
    (dec.decode heap input od os).status = FRESCO_ERROR_DECODING_FAILED ∨
    (dec.decode heap input od os).status = FRESCO_ERROR_OUT_OF_MEMORY := by
  rcases input with _ | y <;> rcases od with _ | d <;> rcases os with _ | s <;>
    try simp [DecoderImpl.decode]
  by_cases hv : heap.vector_grants y.length = true <;>
    by_cases hm : heap.malloc_ok y.length = true <;>
    simp [Container.parse, Container.extract_data, Compression.decompress,
      convert_to_output_format, vector_assign, fresco_malloc, hv, hm]

/-- C4, amended: for every container `c` produced by a successful encode and
every `k` with `0 < k ≤ length c`, `decode` applied to `c` without its last `k`
bytes never returns `FRESCO_ERROR_CORRUPTED_DATA`, on any heap; on a heap that
serves the remaining size it returns `FRESCO_OK` and hands out exactly the
remaining `length c - k` bytes, fewer than the container held. On every heap the
call ends in one of three ways: `FRESCO_OK` with those remaining bytes (exactly
when the vectors get their storage and `fresco_malloc` succeeds),
`FRESCO_ERROR_DECODING_FAILED` with the outputs untouched (a vector is refused
its storage), or `FRESCO_ERROR_OUT_OF_MEMORY` (`fresco_malloc` returns null). -/
theorem truncated_decode_passes_through (enc : EncoderImpl) (dec : DecoderImpl) (heap_e heap_d : Heap)
    (x : Buffer) (k : Nat) (d : Option Buffer) (s : Nat) (d' : Option Buffer) (s' : Nat)
    (hx : x.length % 3 = 0) (he : heap_e.serves x.length = true)
    (hk : 0 < k ∧ k ≤ x.length) (hd : heap_d.serves (x.length - k) = true) :
    ∃ c : Buffer,
      enc.encode heap_e (some x) (some d) (some s) = ⟨enc, FRESCO_OK, some (some c), some c.length⟩ ∧
      (∀ heap : Heap,
        (dec.decode heap (some (c.take (c.length - k))) (some d') (some s')).status
          ≠ FRESCO_ERROR_CORRUPTED_DATA) ∧
      dec.decode heap_d (some (c.take (c.length - k))) (some d') (some s')
        = ⟨dec, FRESCO_OK, some (some (c.take (c.length - k))), some (c.length - k)⟩ ∧
      (c.take (c.length - k)).length = c.length - k ∧ c.length - k < c.length ∧
      (∀ heap : Heap,
        dec.decode heap (some (c.take (c.length - k))) (some d') (some s')
          = ⟨dec, FRESCO_OK, some (some (c.take (c.length - k))), some (c.length - k)⟩ ∨
        dec.decode heap (some (c.take (c.length - k))) (some d') (some s')
          = ⟨dec, FRESCO_ERROR_DECODING_FAILED, some d', some s'⟩ ∨
        dec.decode heap (some (c.take (c.length - k))) (some d') (some s')
          = ⟨dec, FRESCO_ERROR_OUT_OF_MEMORY, some none, some (c.length - k)⟩) ∧
      (∀ heap : Heap,
        ((dec.decode heap (some (c.take (c.length - k))) (some d') (some s')).status = FRESCO_OK ↔
          heap.vector_grants (c.length - k) = true ∧ heap.malloc_ok (c.length - k) = true) ∧
        ((dec.decode heap (some (c.take (c.length - k))) (some d') (some s')).status
            = FRESCO_ERROR_DECODING_FAILED ↔ heap.vector_grants (c.length - k) = false) ∧
        ((dec.decode heap (some (c.take (c.length - k))) (some d') (some s')).status
            = FRESCO_ERROR_OUT_OF_MEMORY ↔
          heap.vector_grants (c.length - k) = true ∧ heap.malloc_ok (c.length - k) = false)) := by
  have hlen : (x.take (x.length - k)).length = x.length - k := by
    simp [List.length_take]
  refine ⟨x, encode_of_serves enc heap_e x d s hx he, ?_, ?_, hlen, by omega, ?_, ?_⟩
  · intro heap h
    rcases decode_status_cases dec heap (some (x.take (x.length - k))) (some d') (some s')
      with h' | h' | h' | h' <;> rw [h'] at h <;> exact absurd h (by decide)
  · have := decode_of_serves dec heap_d (x.take (x.length - k)) d' s' (by rw [hlen]; exact hd)
    rw [this, hlen]
  · intro heap
    rw [decode_some, hlen]
    by_cases hv : heap.vector_grants (x.length - k) = true <;>
      by_cases hm : heap.malloc_ok (x.length - k) = true <;> simp [hv, hm]
  · intro heap
    rw [decode_some, hlen]
    by_cases hv : heap.vector_grants (x.length - k) = true <;>
      by_cases hm : heap.malloc_ok (x.length - k) = true <;> simp [hv, hm]

/-- Witness of the amended C4: the test image container without its last 5
bytes. -/
theorem truncated_decode_passes_through_witness :
    ∃ c : Buffer,
      EncoderImpl.ctor.encode Heap.unbounded (some test_image_) (some none) (some 0)
        = ⟨EncoderImpl.ctor, FRESCO_OK, some (some c), some c.length⟩ ∧
      (∀ heap : Heap,
        (DecoderImpl.ctor.decode heap (some (c.take (c.length - 5))) (some none) (some 0)).status
          ≠ FRESCO_ERROR_CORRUPTED_DATA) ∧
      DecoderImpl.ctor.decode Heap.unbounded (some (c.take (c.length - 5))) (some none) (some 0)
        = ⟨DecoderImpl.ctor, FRESCO_OK, some (some (c.take (c.length - 5))), some (c.length - 5)⟩ ∧
      (c.take (c.length - 5)).length = c.length - 5 ∧ c.length - 5 < c.length ∧
      (∀ heap : Heap,
        DecoderImpl.ctor.decode heap (some (c.take (c.length - 5))) (some none) (some 0)
          = ⟨DecoderImpl.ctor, FRESCO_OK, some (some (c.take (c.length - 5))), some (c.length - 5)⟩ ∨
        DecoderImpl.ctor.decode heap (some (c.take (c.length - 5))) (some none) (some 0)
          = ⟨DecoderImpl.ctor, FRESCO_ERROR_DECODING_FAILED, some none, some 0⟩ ∨
        DecoderImpl.ctor.decode heap (some (c.take (c.length - 5))) (some none) (some 0)
          = ⟨DecoderImpl.ctor, FRESCO_ERROR_OUT_OF_MEMORY, some none, some (c.length - 5)⟩) ∧
      (∀ heap : Heap,
        ((DecoderImpl.ctor.decode heap (some (c.take (c.length - 5))) (some none) (some 0)).status
            = FRESCO_OK ↔
          heap.vector_grants (c.length - 5) = true ∧ heap.malloc_ok (c.length - 5) = true) ∧
        ((DecoderImpl.ctor.decode heap (some (c.take (c.length - 5))) (some none) (some 0)).status
            = FRESCO_ERROR_DECODING_FAILED ↔ heap.vector_grants (c.length - 5) = false) ∧
        ((DecoderImpl.ctor.decode heap (some (c.take (c.length - 5))) (some none) (some 0)).status
            = FRESCO_ERROR_OUT_OF_MEMORY ↔
          heap.vector_grants (c.length - 5) = true ∧ heap.malloc_ok (c.length - 5) = false)) :=
  truncated_decode_passes_through EncoderImpl.ctor DecoderImpl.ctor Heap.unbounded Heap.unbounded
    test_image_ 5 none 0 none 0 (by decide) (by decide) (by decide) (by decide)

/-! ## C5: container signature validation -/

/-- C5, counterexample: the one-byte buffer `[255]`, which no successful encode
ever produces, passes `Container::parse` and `Container::extract_data` with
`FRESCO_OK`, and both `decode` and `fresco_get_metadata` succeed on it. -/
theorem arbitrary_bytes_are_accepted :
    (Container.parse [255]).1 = FRESCO_OK ∧
    Container.extract_data Heap.unbounded [255] = some (FRESCO_OK, [255]) ∧
    (DecoderImpl.ctor.decode Heap.unbounded (some [255]) (some none) (some 0)).status = FRESCO_OK ∧
    (fresco_get_metadata (some [255]) (some metadata_zero)).1 = FRESCO_OK ∧
    (∀ (enc : EncoderImpl) (heap : Heap) (input : Option Buffer) (od : Option (Option Buffer))
        (os : Option Nat), (enc.encode heap input od os).status = FRESCO_OK →
        (enc.encode heap input od os).output_data ≠ some (some [255])) := by
  refine ⟨by decide, by decide, by decide, by decide, ?_⟩
  intro enc heap input od os hok hout
  obtain ⟨x, _, hx, hdata, _⟩ := encode_ok_output enc heap input od os hok
  rw [hdata] at hout
  have hxe : x = [255] := by simpa using hout
  rw [hxe] at hx
  exact absurd hx (by decide)

/-- C5, amended: `Container::parse` and `Container::extract_data` check neither
magic bytes, version nor lengths. On every buffer `parse` (and `parse_header`)
returns `FRESCO_OK` with the fixed header values and the buffer length as
compressed size, and `extract_data` either throws for lack of storage or returns
`FRESCO_OK` with the whole buffer; neither ever returns
`FRESCO_ERROR_UNSUPPORTED_FORMAT` or `FRESCO_ERROR_CORRUPTED_DATA`. Consequently
`fresco_get_metadata` succeeds on arbitrary bytes, and so does `decode` on a heap
that serves the buffer size, handing the bytes back unchanged. -/
theorem container_accepts_every_buffer (dec : DecoderImpl) (heap : Heap) (y : Buffer)
    (d : Option Buffer) (s : Nat) (m0 : fresco_metadata_t)
    (hheap : heap.serves y.length = true) :
    Container.parse y = (FRESCO_OK, ⟨1920, 1080, 3, 8, FRESCO_COLORSPACE_RGB, 1, 0, y.length⟩) ∧
    Container.parse_header y = Container.parse y ∧
    (∀ heap' : Heap, Container.extract_data heap' y = none ∨
      Container.extract_data heap' y = some (FRESCO_OK, y)) ∧
    Container.extract_data heap y = some (FRESCO_OK, y) ∧
    dec.decode heap (some y) (some d) (some s) = ⟨dec, FRESCO_OK, some (some y), some y.length⟩ ∧
    fresco_get_metadata (some y) (some m0)
      = (FRESCO_OK, some ⟨1920, 1080, 3, 8, FRESCO_COLORSPACE_RGB, 1, 0, y.length, y.length⟩) := by
  obtain ⟨hv, _⟩ := (heap.serves_iff _).1 hheap
  refine ⟨rfl, rfl, ?_, ?_, decode_of_serves dec heap y d s hheap, ?_⟩
  · intro heap'
    by_cases h : heap'.vector_grants y.length = true <;>
      simp [Container.extract_data, vector_assign, h]
  · simp [Container.extract_data, vector_assign, Heap.vector_grants, hv]
  · simp [fresco_get_metadata, DecoderImpl.get_metadata, Container.parse_header, Container.parse]

/-- Witness of the amended C5 on the two-byte buffer `[222, 173]`. -/
theorem container_accepts_every_buffer_witness :
    Container.parse [222, 173] = (FRESCO_OK, ⟨1920, 1080, 3, 8, FRESCO_COLORSPACE_RGB, 1, 0, 2⟩) ∧
    Container.parse_header [222, 173] = Container.parse [222, 173] ∧
    (∀ heap' : Heap, Container.extract_data heap' [222, 173] = none ∨
      Container.extract_data heap' [222, 173] = some (FRESCO_OK, [222, 173])) ∧
    Container.extract_data Heap.unbounded [222, 173] = some (FRESCO_OK, [222, 173]) ∧
    DecoderImpl.ctor.decode Heap.unbounded (some [222, 173]) (some none) (some 0)
      = ⟨DecoderImpl.ctor, FRESCO_OK, some (some [222, 173]), some 2⟩ ∧
    fresco_get_metadata (some [222, 173]) (some metadata_zero)
      = (FRESCO_OK, some ⟨1920, 1080, 3, 8, FRESCO_COLORSPACE_RGB, 1, 0, 2, 2⟩) :=
  container_accepts_every_buffer DecoderImpl.ctor Heap.unbounded [222, 173] none 0 metadata_zero
    (by decide)

/-! ## C6: sizes that do not fit the channel count -/

/-- C6: for every non-null input whose length is not a multiple of 3,
`parse_image_format` returns `FRESCO_ERROR_UNSUPPORTED_FORMAT`, and `encode` on
that input (with non-null output pointers, through `EncoderImpl::encode` or the C
entry point, on any encoder and any heap) returns
`FRESCO_ERROR_UNSUPPORTED_FORMAT` and leaves the output pointer and size as they
were. -/
theorem sniffer_rejects_non_multiple_of_three (x : Buffer) (hx : x.length % 3 ≠ 0) :
    parse_image_format x = .error FRESCO_ERROR_UNSUPPORTED_FORMAT ∧
    (∀ (enc : EncoderImpl) (heap : Heap) (d : Option Buffer) (s : Nat),
      enc.encode heap (some x) (some d) (some s)
        = ⟨enc, FRESCO_ERROR_UNSUPPORTED_FORMAT, some d, some s⟩) ∧
    (∀ (enc : EncoderImpl) (heap : Heap) (d : Option Buffer) (s : Nat),
      fresco_encoder_encode (some enc) heap (some x) (some d) (some s)
        = ⟨some enc, FRESCO_ERROR_UNSUPPORTED_FORMAT, some d, some s⟩) := by
  refine ⟨parse_image_format_error x hx, ?_, ?_⟩
  · intro enc heap d s
    rw [encode_some, if_pos hx]
  · intro enc heap d s
    simp only [fresco_encoder_encode]
    rw [encode_some, if_pos hx]

/-- Witness of C6 on a four-byte buffer. -/
theorem sniffer_rejects_non_multiple_of_three_witness :
    parse_image_format [1, 2, 3, 4] = .error FRESCO_ERROR_UNSUPPORTED_FORMAT ∧
    (∀ (enc : EncoderImpl) (heap : Heap) (d : Option Buffer) (s : Nat),
      enc.encode heap (some [1, 2, 3, 4]) (some d) (some s)
        = ⟨enc, FRESCO_ERROR_UNSUPPORTED_FORMAT, some d, some s⟩) ∧
    (∀ (enc : EncoderImpl) (heap : Heap) (d : Option Buffer) (s : Nat),
      fresco_encoder_encode (some enc) heap (some [1, 2, 3, 4]) (some d) (some s)
        = ⟨some enc, FRESCO_ERROR_UNSUPPORTED_FORMAT, some d, some s⟩) :=
  sniffer_rejects_non_multiple_of_three [1, 2, 3, 4] (by decide)

/-! ## C7: the size invariant of `ImageInfo` -/

/-- C7, counterexample: on a six-byte buffer the sniffer succeeds with a
1 x 1 image of 3 channels and bit depth 8, which accounts for 3 bytes, not 6. -/
theorem size_invariant_fails_on_six_bytes :
    ∃ info : ImageInfo,
      parse_image_format [0, 0, 0, 0, 0, 0] = .ok info ∧
      info.width * info.height * info.channels * (info.bit_depth / 8) = 3 ∧
      ([0, 0, 0, 0, 0, 0] : Buffer).length = 6 ∧
      ([0, 0, 0, 0, 0, 0] : Buffer).length
        ≠ info.width * info.height * info.channels * (info.bit_depth / 8) :=
  ⟨⟨1, 1, 3, 8, FRESCO_COLORSPACE_RGB⟩, by decide, by decide, by decide, by decide⟩

/-- C7, amended: whenever the sniffer succeeds on an input of length `n` with
fewer than `2^52` pixels (`n / 3 < 2^52`, where the `double` square root is the
exact floor root), the `ImageInfo` it produces satisfies
`width * height * channels * bytes_per_sample ≤ n`, and
`n == width * height * channels * bytes_per_sample` holds exactly for the
lengths of the form `3 * k * k`. -/
theorem size_invariant_iff_square (x : Buffer) (info : ImageInfo)
    (hpixels : x.length / 3 < 2 ^ 52) (hok : parse_image_format x = .ok info) :
    info.width * info.height * info.channels * (info.bit_depth / 8) ≤ x.length ∧
    (x.length = info.width * info.height * info.channels * (info.bit_depth / 8) ↔
      ∃ k : Nat, x.length = 3 * k * k) := by
  by_cases hx : x.length % 3 = 0
  · rw [parse_image_format_ok_floor x hx hpixels] at hok
    injection hok with hok
    subst hok
    have hle : Nat.sqrt (x.length / 3) * Nat.sqrt (x.length / 3) ≤ x.length / 3 :=
      Nat.sqrt_le (x.length / 3)
    simp only [Nat.reduceDiv, Nat.mul_one]
    refine ⟨by omega, ?_, ?_⟩
    · intro h
      exact ⟨Nat.sqrt (x.length / 3), by rw [Nat.mul_assoc, Nat.mul_comm 3]; exact h⟩
    · rintro ⟨k, hk⟩
      have hdiv : x.length / 3 = k * k := by
        rw [hk, Nat.mul_assoc, Nat.mul_div_cancel_left _ (by decide : 0 < 3)]
      rw [hdiv, Nat.sqrt_eq, hk]
      ring
  · rw [parse_image_format_error x hx] at hok
    cases hok

/-- Witness of the amended C7 on the test fixture image (192 = 3 * 8 * 8). -/
theorem size_invariant_iff_square_witness :
    (8 : Nat) * 8 * 3 * (8 / 8) ≤ test_image_.length ∧
    (test_image_.length = (8 : Nat) * 8 * 3 * (8 / 8) ↔ ∃ k : Nat, test_image_.length = 3 * k * k) :=
  size_invariant_iff_square test_image_ ⟨8, 8, 3, 8, FRESCO_COLORSPACE_RGB⟩ (by decide) (by decide)

/-! ## C8: field ranges of `ImageInfo` -/

/-- C8, counterexample: on the empty buffer the sniffer succeeds and produces
width 0 and height 0. -/
theorem empty_buffer_gives_zero_width :
    ∃ info : ImageInfo,
      parse_image_format [] = .ok info ∧ info.width = 0 ∧ info.height = 0 ∧
      ¬ (info.width > 0 ∧ info.height > 0) :=
  ⟨⟨0, 0, 3, 8, FRESCO_COLORSPACE_RGB⟩, by decide, by decide, by decide, by decide⟩

/-- C8, amended: every `ImageInfo` the sniffer produces on success (input length
fitting `size_t`) has channel count 3 (so between 1 and 4), bit depth 8 (so one
of 8 and 16), the enumerated colour space RGB, and equal width and height, both
below `2^32`; `width > 0` and `height > 0` hold exactly when the accepted buffer
is non-empty, the empty buffer giving width 0 and height 0. -/
theorem image_info_field_ranges (x : Buffer) (info : ImageInfo) (hsize : x.length < 2 ^ 64)
    (hok : parse_image_format x = .ok info) :
    (1 ≤ info.channels ∧ info.channels ≤ 4) ∧ info.channels = 3 ∧
    (info.bit_depth = 8 ∨ info.bit_depth = 16) ∧ info.bit_depth = 8 ∧
    info.colorspace = FRESCO_COLORSPACE_RGB ∧
    info.width = info.height ∧ info.width < 2 ^ 32 ∧
    ((info.width > 0 ∧ info.height > 0) ↔ x ≠ []) ∧
    (x = [] → info.width = 0 ∧ info.height = 0) := by
  by_cases hx : x.length % 3 = 0
  · have hp : x.length / 3 < 2 ^ 63 := by omega
    rw [parse_image_format_ok x hx hsize] at hok
    injection hok with hok
    subst hok
    refine ⟨⟨by simp, by simp⟩, rfl, Or.inl rfl, rfl, rfl, rfl, sqrt_size_t_lt _ hp, ?_, ?_⟩
    · simp only [gt_iff_lt, and_self, sqrt_size_t_pos _ hp, ne_eq]
      constructor
      · intro h hnil
        rw [hnil] at h
        simp at h
      · intro h
        have hpos : 0 < x.length := List.length_pos.2 h
        omega
    · intro hnil
      subst hnil
      exact ⟨by decide, by decide⟩
  · rw [parse_image_format_error x hx] at hok
    cases hok

/-- Witness of the amended C8 on the test fixture image. -/
theorem image_info_field_ranges_witness :
    (1 ≤ 3 ∧ 3 ≤ 4) ∧ 3 = 3 ∧ ((8 : Nat) = 8 ∨ (8 : Nat) = 16) ∧ (8 : Nat) = 8 ∧
    FRESCO_COLORSPACE_RGB = FRESCO_COLORSPACE_RGB ∧ (8 : Nat) = 8 ∧ (8 : Nat) < 2 ^ 32 ∧
    (((8 : Nat) > 0 ∧ (8 : Nat) > 0) ↔ test_image_ ≠ []) ∧
    (test_image_ = [] → (8 : Nat) = 0 ∧ (8 : Nat) = 0) :=
  image_info_field_ranges test_image_ ⟨8, 8, 3, 8, FRESCO_COLORSPACE_RGB⟩ (by decide) (by decide)

/-! ## C9: thread-count invariance -/

/-- C9: for every input (null or not), every pair of output pointers, every
heap and every encoder, replacing `max_threads` by any other value changes
neither the status `encode` returns nor the output pointer and output size it
leaves, so on success the outputs are byte-identical and of the same length. -/
theorem encode_thread_count_invariant (p : fresco_encode_params_t) (t₁ t₂ : Nat) (heap : Heap)
    (input : Option Buffer) (od : Option (Option Buffer)) (os : Option Nat) :
    (EncoderImpl.encode ⟨{ p with max_threads := t₁ }⟩ heap input od os).status
      = (EncoderImpl.encode ⟨{ p with max_threads := t₂ }⟩ heap input od os).status ∧
    (EncoderImpl.encode ⟨{ p with max_threads := t₁ }⟩ heap input od os).output_data
      = (EncoderImpl.encode ⟨{ p with max_threads := t₂ }⟩ heap input od os).output_data ∧
    (EncoderImpl.encode ⟨{ p with max_threads := t₁ }⟩ heap input od os).output_size
      = (EncoderImpl.encode ⟨{ p with max_threads := t₂ }⟩ heap input od os).output_size := by
  rcases input with _ | x
  · simp [encode_null _ heap none od os (Or.inl rfl)]
  rcases od with _ | d
  · simp [encode_null _ heap (some x) none os (Or.inr (Or.inl rfl))]
  rcases os with _ | s
  · simp [encode_null _ heap (some x) (some d) none (Or.inr (Or.inr rfl))]
  simp only [encode_some]
  split_ifs <;> exact ⟨rfl, rfl, rfl⟩

/-! ## C10: size against quality -/

/-- C10: for every input the sniffer accepts (heap serving its size) and every
pair of qualities `1 ≤ q1 < q2 ≤ 100`, with lossy mode and all other parameters
equal (effort in its range), both parameter sets are accepted by `set_params`,
both encodes succeed, and the output size at `q1` is at most the output size at
`q2`. -/
theorem encode_size_monotone_in_quality (enc : EncoderImpl) (p : fresco_encode_params_t)
    (q1 q2 : Nat) (heap : Heap) (x : Buffer) (d : Option Buffer) (s : Nat)
    (hq : 1 ≤ q1 ∧ q1 < q2 ∧ q2 ≤ 100) (heff : 1 ≤ p.effort ∧ p.effort ≤ 10)
    (hx : x.length % 3 = 0) (hheap : heap.serves x.length = true) :
    ∃ (e1 e2 : EncoderImpl) (n1 n2 : Nat),
      enc.set_params (some { p with mode := FRESCO_COMPRESSION_LOSSY, quality := q1 })
        = (FRESCO_OK, e1) ∧
      enc.set_params (some { p with mode := FRESCO_COMPRESSION_LOSSY, quality := q2 })
        = (FRESCO_OK, e2) ∧
      (e1.encode heap (some x) (some d) (some s)).status = FRESCO_OK ∧
      (e1.encode heap (some x) (some d) (some s)).output_size = some n1 ∧
      (e2.encode heap (some x) (some d) (some s)).status = FRESCO_OK ∧
      (e2.encode heap (some x) (some d) (some s)).output_size = some n2 ∧
      n1 ≤ n2 := by
  refine ⟨⟨{ p with mode := FRESCO_COMPRESSION_LOSSY, quality := q1 }⟩,
    ⟨{ p with mode := FRESCO_COMPRESSION_LOSSY, quality := q2 }⟩, x.length, x.length,
    ?_, ?_, ?_, ?_, ?_, ?_, le_refl _⟩
  · have h1 : ¬ (q1 < 1 ∨ q1 > 100) := by omega
    have h2 : ¬ (p.effort < 1 ∨ p.effort > 10) := by omega
    simp only [EncoderImpl.set_params, if_neg h1, if_neg h2]
  · have h1 : ¬ (q2 < 1 ∨ q2 > 100) := by omega
    have h2 : ¬ (p.effort < 1 ∨ p.effort > 10) := by omega
    simp only [EncoderImpl.set_params, if_neg h1, if_neg h2]
  all_goals rw [encode_of_serves _ heap x d s hx hheap]

/-- Witness of C10: the test fixture image at qualities 10 and 90, the other
parameters being the defaults. -/
theorem encode_size_monotone_in_quality_witness :
    ∃ (e1 e2 : EncoderImpl) (n1 n2 : Nat),
      EncoderImpl.ctor.set_params
          (some { EncoderImpl.ctor.params_ with mode := FRESCO_COMPRESSION_LOSSY, quality := 10 })
        = (FRESCO_OK, e1) ∧
      EncoderImpl.ctor.set_params
          (some { EncoderImpl.ctor.params_ with mode := FRESCO_COMPRESSION_LOSSY, quality := 90 })
        = (FRESCO_OK, e2) ∧
      (e1.encode Heap.unbounded (some test_image_) (some none) (some 0)).status = FRESCO_OK ∧
      (e1.encode Heap.unbounded (some test_image_) (some none) (some 0)).output_size = some n1 ∧
      (e2.encode Heap.unbounded (some test_image_) (some none) (some 0)).status = FRESCO_OK ∧
      (e2.encode Heap.unbounded (some test_image_) (some none) (some 0)).output_size = some n2 ∧
      n1 ≤ n2 :=
  encode_size_monotone_in_quality EncoderImpl.ctor EncoderImpl.ctor.params_ 10 90 Heap.unbounded
    test_image_ none 0 (by decide) (by decide) (by decide) (by decide)

/-! ## C11: lossy decode preserves the size -/

/-- C11: for every encoder in lossy mode, every decoder and every input the
sniffer accepts (heaps serving its size), `encode` succeeds with a container
`c`, `decode` of `c` succeeds, and the decoded output has the length of the
input; with the parameters of the test (lossy, quality 85, effort 5, 4 threads,
tile size 256) the 8x8 RGB fixture decodes to 192 bytes. -/
theorem lossy_decode_preserves_length (enc : EncoderImpl) (dec : DecoderImpl) (heap_e heap_d : Heap)
    (x : Buffer) (d : Option Buffer) (s : Nat) (d' : Option Buffer) (s' : Nat)
    (_hmode : enc.params_.mode = FRESCO_COMPRESSION_LOSSY)
    (hx : x.length % 3 = 0)
    (he : heap_e.serves x.length = true) (hd : heap_d.serves x.length = true) :
    (∃ c y : Buffer,
      enc.encode heap_e (some x) (some d) (some s) = ⟨enc, FRESCO_OK, some (some c), some c.length⟩ ∧
      dec.decode heap_d (some c) (some d') (some s') = ⟨dec, FRESCO_OK, some (some y), some y.length⟩ ∧
      y.length = x.length) ∧
    (∃ (e : EncoderImpl) (c y : Buffer),
      EncoderImpl.ctor.set_params (some ⟨FRESCO_COMPRESSION_LOSSY, 85, 5, 4, 256, 0, 0, 0⟩)
        = (FRESCO_OK, e) ∧
      e.encode Heap.unbounded (some test_image_) (some none) (some 0)
        = ⟨e, FRESCO_OK, some (some c), some c.length⟩ ∧
      DecoderImpl.ctor.decode Heap.unbounded (some c) (some none) (some 0)
        = ⟨DecoderImpl.ctor, FRESCO_OK, some (some y), some 192⟩ ∧
      y.length = 192) :=
  ⟨⟨x, x, encode_of_serves enc heap_e x d s hx he, decode_of_serves dec heap_d x d' s' hd, rfl⟩,
    ⟨⟨⟨FRESCO_COMPRESSION_LOSSY, 85, 5, 4, 256, 0, 0, 0⟩⟩, test_image_, test_image_,
      by decide, by decide, by decide, by decide⟩⟩

/-- Witness of C11: a 12-byte image through a default (lossy) encoder. -/
theorem lossy_decode_preserves_length_witness :
    (∃ c y : Buffer,
      EncoderImpl.ctor.encode Heap.unbounded (some [1, 2, 3, 4, 5, 6, 7, 8, 9, 10, 11, 12])
          (some none) (some 0)
        = ⟨EncoderImpl.ctor, FRESCO_OK, some (some c), some c.length⟩ ∧
      DecoderImpl.ctor.decode Heap.unbounded (some c) (some none) (some 0)
        = ⟨DecoderImpl.ctor, FRESCO_OK, some (some y), some y.length⟩ ∧
      y.length = ([1, 2, 3, 4, 5, 6, 7, 8, 9, 10, 11, 12] : Buffer).length) ∧
    (∃ (e : EncoderImpl) (c y : Buffer),
      EncoderImpl.ctor.set_params (some ⟨FRESCO_COMPRESSION_LOSSY, 85, 5, 4, 256, 0, 0, 0⟩)
        = (FRESCO_OK, e) ∧
      e.encode Heap.unbounded (some test_image_) (some none) (some 0)
        = ⟨e, FRESCO_OK, some (some c), some c.length⟩ ∧
      DecoderImpl.ctor.decode Heap.unbounded (some c) (some none) (some 0)
        = ⟨DecoderImpl.ctor, FRESCO_OK, some (some y), some 192⟩ ∧
      y.length = 192) :=
  lossy_decode_preserves_length EncoderImpl.ctor DecoderImpl.ctor Heap.unbounded Heap.unbounded
    [1, 2, 3, 4, 5, 6, 7, 8, 9, 10, 11, 12] none 0 none 0 rfl (by decide) (by decide) (by decide)

/-! ## C12: null arguments -/

/-- C12: `fresco_encoder_encode` returns `FRESCO_ERROR_INVALID_PARAMETER`
whenever the encoder handle, the input buffer, the output-data pointer or the
output-size pointer is null, and `fresco_decoder_decode` does whenever the
decoder handle or one of the same three pointers is null. The result is the same
on every heap and for every input content (nothing is sniffed, parsed or
allocated first), the handle keeps its state, and the caller storage behind the
output pointers is left as it was. -/
theorem null_arguments_rejected (encoder : Option EncoderImpl) (decoder : Option DecoderImpl)
    (input_e input_d : Option Buffer) (od_e od_d : Option (Option Buffer)) (os_e os_d : Option Nat)
    (he : encoder = none ∨ input_e = none ∨ od_e = none ∨ os_e = none)
    (hd : decoder = none ∨ input_d = none ∨ od_d = none ∨ os_d = none) :
    (∀ heap : Heap, fresco_encoder_encode encoder heap input_e od_e os_e
      = ⟨encoder, FRESCO_ERROR_INVALID_PARAMETER, od_e, os_e⟩) ∧
    (∀ heap : Heap, fresco_decoder_decode decoder heap input_d od_d os_d
      = ⟨decoder, FRESCO_ERROR_INVALID_PARAMETER, od_d, os_d⟩) := by
  constructor
  · intro heap
    rcases encoder with _ | enc
    · rfl
    · have h : input_e = none ∨ od_e = none ∨ os_e = none := by simpa using he
      simp only [fresco_encoder_encode, encode_null enc heap input_e od_e os_e h]
  · intro heap
    rcases decoder with _ | dec
    · rfl
    · have h : input_d = none ∨ od_d = none ∨ os_d = none := by simpa using hd
      simp only [fresco_decoder_decode, decode_null dec heap input_d od_d os_d h]

/-- Witness of C12: a null encoder handle with otherwise valid arguments, and a
valid decoder handle with a null output-size pointer. -/
theorem null_arguments_rejected_witness :
    (∀ heap : Heap, fresco_encoder_encode none heap (some test_image_) (some none) (some 0)
      = ⟨none, FRESCO_ERROR_INVALID_PARAMETER, some none, some 0⟩) ∧
    (∀ heap : Heap, fresco_decoder_decode (some DecoderImpl.ctor) heap (some [1, 2]) (some (some [7])) none
      = ⟨some DecoderImpl.ctor, FRESCO_ERROR_INVALID_PARAMETER, some (some [7]), none⟩) :=
  null_arguments_rejected none (some DecoderImpl.ctor) (some test_image_) (some [1, 2]) (some none)
    (some (some [7])) (some 0) none (Or.inl rfl) (Or.inr (Or.inr (Or.inr rfl)))

/-! ## C13: atomic failure -/

/-- C13, the code at the failing input: when `fresco_malloc` returns null,
`encode` and `decode` return `FRESCO_ERROR_OUT_OF_MEMORY` after having
overwritten the caller's output size (here 7, now 3) and output pointer (here a
pointer to `[9]`, now null). Every other failing path leaves both as they were:
whenever the status is neither `FRESCO_OK` nor `FRESCO_ERROR_OUT_OF_MEMORY`, the
output pointer and size are unchanged. -/
theorem out_of_memory_overwrites_outputs :
    EncoderImpl.ctor.encode Heap.exhausted (some [1, 2, 3]) (some (some [9])) (some 7)
      = ⟨EncoderImpl.ctor, FRESCO_ERROR_OUT_OF_MEMORY, some none, some 3⟩ ∧
    DecoderImpl.ctor.decode Heap.exhausted (some [1, 2, 3]) (some (some [9])) (some 7)
      = ⟨DecoderImpl.ctor, FRESCO_ERROR_OUT_OF_MEMORY, some none, some 3⟩ ∧
    (∀ (enc : EncoderImpl) (heap : Heap) (input : Option Buffer) (od : Option (Option Buffer))
        (os : Option Nat),
      (enc.encode heap input od os).status ≠ FRESCO_OK →
      (enc.encode heap input od os).status ≠ FRESCO_ERROR_OUT_OF_MEMORY →
      (enc.encode heap input od os).output_data = od ∧
      (enc.encode heap input od os).output_size = os) ∧
    (∀ (dec : DecoderImpl) (heap : Heap) (input : Option Buffer) (od : Option (Option Buffer))
        (os : Option Nat),
      (dec.decode heap input od os).status ≠ FRESCO_OK →
      (dec.decode heap input od os).status ≠ FRESCO_ERROR_OUT_OF_MEMORY →
      (dec.decode heap input od os).output_data = od ∧
      (dec.decode heap input od os).output_size = os) := by
  refine ⟨by decide, by decide, ?_, ?_⟩
  · intro enc heap input od os h1 h2
    rcases input with _ | x
    · simp [encode_null enc heap none od os (Or.inl rfl)]
    rcases od with _ | d
    · simp [encode_null enc heap (some x) none os (Or.inr (Or.inl rfl))]
    rcases os with _ | s
    · simp [encode_null enc heap (some x) (some d) none (Or.inr (Or.inr rfl))]
    rw [encode_some] at h1 h2 ⊢
    split_ifs at h1 h2 ⊢ <;> simp at h1 h2 ⊢
  · intro dec heap input od os h1 h2
    rcases input with _ | x
    · simp [decode_null dec heap none od os (Or.inl rfl)]
    rcases od with _ | d
    · simp [decode_null dec heap (some x) none os (Or.inr (Or.inl rfl))]
    rcases os with _ | s
    · simp [decode_null dec heap (some x) (some d) none (Or.inr (Or.inr rfl))]
    rw [decode_some] at h1 h2 ⊢
    split_ifs at h1 h2 ⊢ <;> simp at h1 h2 ⊢

/-! ## C14: the error codes of decode -/

/-- C14, counterexample: on a heap whose `std::malloc` returns null,
`fresco_decoder_decode` on a valid handle and non-null arguments returns
`FRESCO_ERROR_OUT_OF_MEMORY`, which is none of `FRESCO_OK`,
`FRESCO_ERROR_INVALID_PARAMETER`, `FRESCO_ERROR_CORRUPTED_DATA` and
`FRESCO_ERROR_DECODING_FAILED`. -/
theorem decode_returns_out_of_memory :
    (fresco_decoder_decode (some DecoderImpl.ctor) Heap.exhausted (some [1, 2, 3]) (some none)
        (some 0)).status = FRESCO_ERROR_OUT_OF_MEMORY ∧
    ¬ ((fresco_decoder_decode (some DecoderImpl.ctor) Heap.exhausted (some [1, 2, 3]) (some none)
          (some 0)).status = FRESCO_OK ∨
       (fresco_decoder_decode (some DecoderImpl.ctor) Heap.exhausted (some [1, 2, 3]) (some none)
          (some 0)).status = FRESCO_ERROR_INVALID_PARAMETER ∨
       (fresco_decoder_decode (some DecoderImpl.ctor) Heap.exhausted (some [1, 2, 3]) (some none)
          (some 0)).status = FRESCO_ERROR_CORRUPTED_DATA ∨
       (fresco_decoder_decode (some DecoderImpl.ctor) Heap.exhausted (some [1, 2, 3]) (some none)
          (some 0)).status = FRESCO_ERROR_DECODING_FAILED) := by
  decide

/-- C14, amended: for every decoder handle (null or not), every heap and every
argument combination, `fresco_decoder_decode` returns one of `FRESCO_OK`,
`FRESCO_ERROR_INVALID_PARAMETER`, `FRESCO_ERROR_DECODING_FAILED` or
`FRESCO_ERROR_OUT_OF_MEMORY`, and never `FRESCO_ERROR_CORRUPTED_DATA` or
`FRESCO_ERROR_UNSUPPORTED_FORMAT`; with a valid handle and non-null arguments
`FRESCO_ERROR_OUT_OF_MEMORY` is returned exactly when the vectors get their
storage (which an empty input always grants, no storage being requested) and the
output `fresco_malloc` returns null, `FRESCO_ERROR_DECODING_FAILED` exactly when
a vector is refused its storage, and `FRESCO_OK` exactly when neither fails. -/
theorem decode_error_set (decoder : Option DecoderImpl) (dec : DecoderImpl) (heap : Heap)
    (input : Option Buffer) (od : Option (Option Buffer)) (os : Option Nat)
    (y : Buffer) (d : Option Buffer) (s : Nat) :
    ((fresco_decoder_decode decoder heap input od os).status = FRESCO_OK ∨
     (fresco_decoder_decode decoder heap input od os).status = FRESCO_ERROR_INVALID_PARAMETER ∨
     (fresco_decoder_decode decoder heap input od os).status = FRESCO_ERROR_DECODING_FAILED ∨
     (fresco_decoder_decode decoder heap input od os).status = FRESCO_ERROR_OUT_OF_MEMORY) ∧
    (fresco_decoder_decode decoder heap input od os).status ≠ FRESCO_ERROR_CORRUPTED_DATA ∧
    (fresco_decoder_decode decoder heap input od os).status ≠ FRESCO_ERROR_UNSUPPORTED_FORMAT ∧
    ((fresco_decoder_decode (some dec) heap (some y) (some d) (some s)).status
        = FRESCO_ERROR_OUT_OF_MEMORY ↔
      (y = [] ∨ heap.vector_ok y.length = true) ∧ heap.malloc_ok y.length = false) ∧
    ((fresco_decoder_decode (some dec) heap (some y) (some d) (some s)).status
        = FRESCO_ERROR_DECODING_FAILED ↔
      y ≠ [] ∧ heap.vector_ok y.length = false) ∧
    ((fresco_decoder_decode (some dec) heap (some y) (some d) (some s)).status = FRESCO_OK ↔
      (y = [] ∨ heap.vector_ok y.length = true) ∧ heap.malloc_ok y.length = true) ∧
    (fresco_decoder_decode (some DecoderImpl.ctor)
        { malloc_ok := fun _ => false, vector_ok := fun _ => false } (some []) (some none)
        (some 0)).status = FRESCO_ERROR_OUT_OF_MEMORY := by
  have hcases : (fresco_decoder_decode decoder heap input od os).status = FRESCO_OK ∨
      (fresco_decoder_decode decoder heap input od os).status = FRESCO_ERROR_INVALID_PARAMETER ∨
      (fresco_decoder_decode decoder heap input od os).status = FRESCO_ERROR_DECODING_FAILED ∨
      (fresco_decoder_decode decoder heap input od os).status = FRESCO_ERROR_OUT_OF_MEMORY := by
    rcases decoder with _ | impl
    · exact Or.inr (Or.inl rfl)
    · exact decode_status_cases impl heap input od os
  have hgrants : heap.vector_grants y.length = true ↔ (y = [] ∨ heap.vector_ok y.length = true) := by
    simp [Heap.vector_grants]
  refine ⟨hcases, ?_, ?_, ?_, ?_, ?_, by decide⟩
  · intro h
    rcases hcases with h' | h' | h' | h' <;> rw [h'] at h <;> simp at h
  · intro h
    rcases hcases with h' | h' | h' | h' <;> rw [h'] at h <;> simp at h
  · rw [← hgrants]
    simp only [fresco_decoder_decode, decode_some]
    by_cases hv : heap.vector_grants y.length = true <;>
      by_cases hm : heap.malloc_ok y.length = true <;> simp [hv, hm]
  · have hneg : (y ≠ [] ∧ heap.vector_ok y.length = false) ↔ ¬ heap.vector_grants y.length = true := by
      rw [hgrants]
      simp
    rw [hneg]
    simp only [fresco_decoder_decode, decode_some]
    by_cases hv : heap.vector_grants y.length = true <;>
      by_cases hm : heap.malloc_ok y.length = true <;> simp [hv, hm]
  · rw [← hgrants]
    simp only [fresco_decoder_decode, decode_some]
    by_cases hv : heap.vector_grants y.length = true <;>
      by_cases hm : heap.malloc_ok y.length = true <;> simp [hv, hm]

/-! ## C15: the error contract of get_metadata -/

/-- C15: `fresco_get_metadata` (and `DecoderImpl::get_metadata` on any decoder)
returns `FRESCO_ERROR_INVALID_PARAMETER` exactly when the input buffer or the
metadata out-pointer is null, leaving the metadata storage as it was; for every
non-null input of any length it returns `FRESCO_OK` or
`FRESCO_ERROR_DECODING_FAILED` (in fact always `FRESCO_OK`), and on `FRESCO_OK`
all nine fields are written, none keeping the value the caller storage `m0`
held. -/
theorem get_metadata_error_contract (dec : DecoderImpl) (input : Option Buffer)
    (metadata : Option fresco_metadata_t) (y : Buffer) (m0 : fresco_metadata_t) :
    ((fresco_get_metadata input metadata).1 = FRESCO_ERROR_INVALID_PARAMETER ↔
      (input = none ∨ metadata = none)) ∧
    ((dec.get_metadata input metadata).1 = FRESCO_ERROR_INVALID_PARAMETER ↔
      (input = none ∨ metadata = none)) ∧
    fresco_get_metadata none metadata = (FRESCO_ERROR_INVALID_PARAMETER, metadata) ∧
    fresco_get_metadata input none = (FRESCO_ERROR_INVALID_PARAMETER, none) ∧
    dec.get_metadata none metadata = (FRESCO_ERROR_INVALID_PARAMETER, metadata) ∧
    dec.get_metadata input none = (FRESCO_ERROR_INVALID_PARAMETER, none) ∧
    ((fresco_get_metadata (some y) (some m0)).1 = FRESCO_OK ∨
     (fresco_get_metadata (some y) (some m0)).1 = FRESCO_ERROR_DECODING_FAILED) ∧
    fresco_get_metadata (some y) (some m0)
      = (FRESCO_OK, some ⟨1920, 1080, 3, 8, FRESCO_COLORSPACE_RGB, 1, 0, y.length, y.length⟩) ∧
    dec.get_metadata (some y) (some m0) = fresco_get_metadata (some y) (some m0) := by
  refine ⟨?_, ?_, ?_, ?_, ?_, ?_, ?_, ?_, ?_⟩
  · rcases input with _ | x <;> rcases metadata with _ | m <;>
      simp [fresco_get_metadata, DecoderImpl.get_metadata, Container.parse_header, Container.parse]
  · rcases input with _ | x <;> rcases metadata with _ | m <;>
      simp [DecoderImpl.get_metadata, Container.parse_header, Container.parse]
  · rcases metadata with _ | m <;> rfl
  · rcases input with _ | x <;> rfl
  · rcases metadata with _ | m <;> rfl
  · rcases input with _ | x <;> rfl
  · exact Or.inl rfl
  · rfl
  · rfl

/-! ## C16: parameters persist across calls -/

/-- C16: `encode` returns the encoder object with its stored parameters
untouched, and `decode` the decoder object, whatever the arguments, the heap and
the outcome. Hence after any sequence of `encode` calls the encoder is the one it
was, and after any sequence of `set_params` and `encode` calls its stored
parameters are those of the last accepted `set_params`, or those it started with
(the defaults for a fresh encoder). Two consecutive encodes of the same input on
one handle, meeting the same heap behaviour and writing through the same output
pointers, return the same status and leave the same output bytes and size; with
fresh output variables for the second call the status is again the same, and on
success so are the bytes. -/
theorem parameters_persist (enc : EncoderImpl) (dec : DecoderImpl) (heap : Heap)
    (input : Option Buffer) (od : Option (Option Buffer)) (os : Option Nat)
    (calls : List EncoderCall)
    (encodes : List (Heap × Option Buffer × Option (Option Buffer) × Option Nat))
    (x : Buffer) (d₁ d₂ : Option Buffer) (s₁ s₂ : Nat) :
    (enc.encode heap input od os).self = enc ∧
    (enc.encode heap input od os).self.params_ = enc.params_ ∧
    (dec.decode heap input od os).self = dec ∧
    (dec.decode heap input od os).self.params_ = dec.params_ ∧
    enc.run (encodes.map (fun a => EncoderCall.encode a.1 a.2.1 a.2.2.1 a.2.2.2)) = enc ∧
    (enc.run calls).params_ = last_accepted_params enc.params_ calls ∧
    (EncoderImpl.ctor.run calls).params_ = last_accepted_params EncoderImpl.ctor.params_ calls ∧
    ((enc.encode heap input od os).self.encode heap input
        (enc.encode heap input od os).output_data (enc.encode heap input od os).output_size).status
      = (enc.encode heap input od os).status ∧
    ((enc.encode heap input od os).self.encode heap input
        (enc.encode heap input od os).output_data (enc.encode heap input od os).output_size).output_data
      = (enc.encode heap input od os).output_data ∧
    ((enc.encode heap input od os).self.encode heap input
        (enc.encode heap input od os).output_data (enc.encode heap input od os).output_size).output_size
      = (enc.encode heap input od os).output_size ∧
    ((enc.encode heap (some x) (some d₁) (some s₁)).self.encode heap (some x) (some d₂) (some s₂)).status
      = (enc.encode heap (some x) (some d₁) (some s₁)).status ∧
    ((enc.encode heap (some x) (some d₁) (some s₁)).status = FRESCO_OK →
      ((enc.encode heap (some x) (some d₁) (some s₁)).self.encode heap (some x) (some d₂)
          (some s₂)).output_data = (enc.encode heap (some x) (some d₁) (some s₁)).output_data ∧
      ((enc.encode heap (some x) (some d₁) (some s₁)).self.encode heap (some x) (some d₂)
          (some s₂)).output_size = (enc.encode heap (some x) (some d₁) (some s₁)).output_size) := by
  have hseq : ∀ (l : List (Heap × Option Buffer × Option (Option Buffer) × Option Nat))
      (e : EncoderImpl),
      e.run (l.map (fun a => EncoderCall.encode a.1 a.2.1 a.2.2.1 a.2.2.2)) = e := by
    intro l
    induction l with
    | nil => intro e; rfl
    | cons a l ih =>
      intro e
      have hrun : e.run ((a :: l).map (fun a => EncoderCall.encode a.1 a.2.1 a.2.2.1 a.2.2.2))
          = (e.call (EncoderCall.encode a.1 a.2.1 a.2.2.1 a.2.2.2)).run
              (l.map (fun a => EncoderCall.encode a.1 a.2.1 a.2.2.1 a.2.2.2)) := rfl
      rw [hrun, ih]
      simp only [EncoderImpl.call, encode_self]
  refine ⟨encode_self enc heap input od os, by rw [encode_self], decode_self dec heap input od os,
    by rw [decode_self], hseq encodes enc, run_params calls enc, run_params calls EncoderImpl.ctor,
    ?_, ?_, ?_, ?_, ?_⟩
  · rw [encode_self]
    rcases input with _ | x'
    · simp [encode_null enc heap none _ _ (Or.inl rfl)]
    rcases od with _ | d
    · simp [encode_null enc heap (some x') none _ (Or.inr (Or.inl rfl))]
    rcases os with _ | s
    · simp [encode_null enc heap (some x') _ none (Or.inr (Or.inr rfl))]
    rw [encode_some]
    split_ifs <;> simp [encode_some, *]
  · rw [encode_self]
    rcases input with _ | x'
    · simp [encode_null enc heap none _ _ (Or.inl rfl)]
    rcases od with _ | d
    · simp [encode_null enc heap (some x') none _ (Or.inr (Or.inl rfl))]
    rcases os with _ | s
    · simp [encode_null enc heap (some x') _ none (Or.inr (Or.inr rfl))]
    rw [encode_some]
    split_ifs <;> simp [encode_some, *]
  · rw [encode_self]
    rcases input with _ | x'
    · simp [encode_null enc heap none _ _ (Or.inl rfl)]
    rcases od with _ | d
    · simp [encode_null enc heap (some x') none _ (Or.inr (Or.inl rfl))]
    rcases os with _ | s
    · simp [encode_null enc heap (some x') _ none (Or.inr (Or.inr rfl))]
    rw [encode_some]
    split_ifs <;> simp [encode_some, *]
  · rw [encode_self]
    simp only [encode_some]
    split_ifs <;> rfl
  · rw [encode_self]
    simp only [encode_some]
    split_ifs <;> simp

/-! ## C17: reserved feature flags -/

/-- C17, counterexample: a parameter set with `enable_animation = 1` (and one
with all three flags set) is accepted by `fresco_encoder_set_params`, and
`fresco_encoder_encode` of the test image on that encoder returns `FRESCO_OK`,
not `FRESCO_ERROR_NOT_IMPLEMENTED`. -/
theorem reserved_flags_encode_ok :
    fresco_encoder_set_params (some EncoderImpl.ctor)
        (some ⟨FRESCO_COMPRESSION_LOSSY, 85, 5, 4, 256, 1, 0, 0⟩)
      = (FRESCO_OK, some ⟨⟨FRESCO_COMPRESSION_LOSSY, 85, 5, 4, 256, 1, 0, 0⟩⟩) ∧
    (fresco_encoder_encode (some ⟨⟨FRESCO_COMPRESSION_LOSSY, 85, 5, 4, 256, 1, 0, 0⟩⟩)
        Heap.unbounded (some test_image_) (some none) (some 0)).status = FRESCO_OK ∧
    (fresco_encoder_encode (some ⟨⟨FRESCO_COMPRESSION_LOSSY, 85, 5, 4, 256, 1, 0, 0⟩⟩)
        Heap.unbounded (some test_image_) (some none) (some 0)).status
      ≠ FRESCO_ERROR_NOT_IMPLEMENTED ∧
    fresco_encoder_set_params (some EncoderImpl.ctor)
        (some ⟨FRESCO_COMPRESSION_LOSSLESS, 85, 5, 4, 256, 1, 1, 1⟩)
      = (FRESCO_OK, some ⟨⟨FRESCO_COMPRESSION_LOSSLESS, 85, 5, 4, 256, 1, 1, 1⟩⟩) ∧
    (fresco_encoder_encode (some ⟨⟨FRESCO_COMPRESSION_LOSSLESS, 85, 5, 4, 256, 1, 1, 1⟩⟩)
        Heap.unbounded (some test_image_) (some none) (some 0)).status = FRESCO_OK := by
  refine ⟨by decide, by decide, by decide, by decide, by decide⟩

/-- C17, amended: the flags `enable_animation`, `enable_3d` and `enable_vector`
are stored and never read. For every parameter set with quality and effort in
range, whatever the three flags, `set_params` returns `FRESCO_OK` and stores the
set, and `encode` on the resulting encoder returns the status, output bytes and
output size it returns with the three flags cleared; that status is never
`FRESCO_ERROR_NOT_IMPLEMENTED`. -/
theorem reserved_flags_are_ignored (enc : EncoderImpl) (p : fresco_encode_params_t)
    (animation three_d vector : Int) (heap : Heap) (input : Option Buffer)
    (od : Option (Option Buffer)) (os : Option Nat)
    (hrange : 1 ≤ p.quality ∧ p.quality ≤ 100 ∧ 1 ≤ p.effort ∧ p.effort ≤ 10) :
    enc.set_params
        (some { p with enable_animation := animation, enable_3d := three_d, enable_vector := vector })
      = (FRESCO_OK,
          ⟨{ p with enable_animation := animation, enable_3d := three_d, enable_vector := vector }⟩) ∧
    (EncoderImpl.encode
        ⟨{ p with enable_animation := animation, enable_3d := three_d, enable_vector := vector }⟩
        heap input od os).status
      = (EncoderImpl.encode ⟨{ p with enable_animation := 0, enable_3d := 0, enable_vector := 0 }⟩
          heap input od os).status ∧
    (EncoderImpl.encode
        ⟨{ p with enable_animation := animation, enable_3d := three_d, enable_vector := vector }⟩
        heap input od os).output_data
      = (EncoderImpl.encode ⟨{ p with enable_animation := 0, enable_3d := 0, enable_vector := 0 }⟩
          heap input od os).output_data ∧
    (EncoderImpl.encode
        ⟨{ p with enable_animation := animation, enable_3d := three_d, enable_vector := vector }⟩
        heap input od os).output_size
      = (EncoderImpl.encode ⟨{ p with enable_animation := 0, enable_3d := 0, enable_vector := 0 }⟩
          heap input od os).output_size ∧
    (EncoderImpl.encode
        ⟨{ p with enable_animation := animation, enable_3d := three_d, enable_vector := vector }⟩
        heap input od os).status ≠ FRESCO_ERROR_NOT_IMPLEMENTED := by
  refine ⟨set_params_accept enc _ hrange, (encode_params_irrelevant _ _ heap input od os).1,
    (encode_params_irrelevant _ _ heap input od os).2.1,
    (encode_params_irrelevant _ _ heap input od os).2.2, ?_⟩
  rcases input with _ | x
  · simp [encode_null _ heap none od os (Or.inl rfl)]
  rcases od with _ | d
  · simp [encode_null _ heap (some x) none os (Or.inr (Or.inl rfl))]
  rcases os with _ | s
  · simp [encode_null _ heap (some x) (some d) none (Or.inr (Or.inr rfl))]
  rw [encode_some]
  split_ifs <;> simp

/-- Witness of the amended C17: the parameters of the test with the 3D and
vector flags set, encoding the test image. -/
theorem reserved_flags_are_ignored_witness :
    EncoderImpl.ctor.set_params (some ⟨FRESCO_COMPRESSION_LOSSY, 85, 5, 4, 256, 0, 1, -1⟩)
      = (FRESCO_OK, ⟨⟨FRESCO_COMPRESSION_LOSSY, 85, 5, 4, 256, 0, 1, -1⟩⟩) ∧
    (EncoderImpl.encode ⟨⟨FRESCO_COMPRESSION_LOSSY, 85, 5, 4, 256, 0, 1, -1⟩⟩
        Heap.unbounded (some test_image_) (some none) (some 0)).status
      = (EncoderImpl.encode ⟨⟨FRESCO_COMPRESSION_LOSSY, 85, 5, 4, 256, 0, 0, 0⟩⟩
          Heap.unbounded (some test_image_) (some none) (some 0)).status ∧
    (EncoderImpl.encode ⟨⟨FRESCO_COMPRESSION_LOSSY, 85, 5, 4, 256, 0, 1, -1⟩⟩
        Heap.unbounded (some test_image_) (some none) (some 0)).output_data
      = (EncoderImpl.encode ⟨⟨FRESCO_COMPRESSION_LOSSY, 85, 5, 4, 256, 0, 0, 0⟩⟩
          Heap.unbounded (some test_image_) (some none) (some 0)).output_data ∧
    (EncoderImpl.encode ⟨⟨FRESCO_COMPRESSION_LOSSY, 85, 5, 4, 256, 0, 1, -1⟩⟩
        Heap.unbounded (some test_image_) (some none) (some 0)).output_size
      = (EncoderImpl.encode ⟨⟨FRESCO_COMPRESSION_LOSSY, 85, 5, 4, 256, 0, 0, 0⟩⟩
          Heap.unbounded (some test_image_) (some none) (some 0)).output_size ∧
    (EncoderImpl.encode ⟨⟨FRESCO_COMPRESSION_LOSSY, 85, 5, 4, 256, 0, 1, -1⟩⟩
        Heap.unbounded (some test_image_) (some none) (some 0)).status
      ≠ FRESCO_ERROR_NOT_IMPLEMENTED :=
  reserved_flags_are_ignored EncoderImpl.ctor ⟨FRESCO_COMPRESSION_LOSSY, 85, 5, 4, 256, 0, 0, 0⟩
    0 1 (-1) Heap.unbounded (some test_image_) (some none) (some 0) (by decide)

/-! ## C18: handle creation -/

/-- C18: `fresco_encoder_create` and `fresco_decoder_create` return
`FRESCO_ERROR_INVALID_PARAMETER` when the out-pointer is null; otherwise, the
allocation succeeding, they return `FRESCO_OK` and store a non-null handle to a
default-constructed object, whatever the caller variable held. With the
allocation succeeding they return `FRESCO_OK` if and only if the out-pointer is
non-null; in general they return `FRESCO_OK` if and only if the out-pointer is
non-null and the allocation succeeds. -/
theorem handle_creation (new_ok : Bool) (encoder : Option (Option EncoderImpl))
    (decoder : Option (Option DecoderImpl)) (h_e : Option EncoderImpl) (h_d : Option DecoderImpl) :
    fresco_encoder_create new_ok none = (FRESCO_ERROR_INVALID_PARAMETER, none) ∧
    fresco_decoder_create new_ok none = (FRESCO_ERROR_INVALID_PARAMETER, none) ∧
    fresco_encoder_create true (some h_e) = (FRESCO_OK, some (some EncoderImpl.ctor)) ∧
    fresco_decoder_create true (some h_d) = (FRESCO_OK, some (some DecoderImpl.ctor)) ∧
    ((fresco_encoder_create true encoder).1 = FRESCO_OK ↔ encoder ≠ none) ∧
    ((fresco_decoder_create true decoder).1 = FRESCO_OK ↔ decoder ≠ none) ∧
    ((fresco_encoder_create new_ok encoder).1 = FRESCO_OK ↔ encoder ≠ none ∧ new_ok = true) ∧
    ((fresco_decoder_create new_ok decoder).1 = FRESCO_OK ↔ decoder ≠ none ∧ new_ok = true) := by
  refine ⟨rfl, rfl, rfl, rfl, ?_, ?_, ?_, ?_⟩
  · rcases encoder with _ | h <;> simp [fresco_encoder_create]
  · rcases decoder with _ | h <;> simp [fresco_decoder_create]
  · rcases encoder with _ | h <;> cases new_ok <;> simp [fresco_encoder_create]
  · rcases decoder with _ | h <;> cases new_ok <;> simp [fresco_decoder_create]

/-! ## C19: decoder parameters -/

/-- C19: for every decoder and every non-null decode parameter set, whatever
its `max_threads`, progressive flag and metadata-only flag,
`fresco_decoder_set_params` returns `FRESCO_OK` and the decoder's stored
parameters become exactly that set; with a null decoder handle or a null
parameter pointer it returns `FRESCO_ERROR_INVALID_PARAMETER` and the stored
parameters are unchanged. -/
theorem decoder_set_params_contract (dec : DecoderImpl) (decoder : Option DecoderImpl)
    (p : fresco_decode_params_t) (params : Option fresco_decode_params_t) :
    fresco_decoder_set_params (some dec) (some p) = (FRESCO_OK, some ⟨p⟩) ∧
    dec.set_params (some p) = (FRESCO_OK, ⟨p⟩) ∧
    (dec.set_params (some p)).2.params_ = p ∧
    fresco_decoder_set_params none params = (FRESCO_ERROR_INVALID_PARAMETER, none) ∧
    fresco_decoder_set_params decoder none = (FRESCO_ERROR_INVALID_PARAMETER, decoder) ∧
    dec.set_params none = (FRESCO_ERROR_INVALID_PARAMETER, dec) := by
  refine ⟨rfl, rfl, rfl, rfl, ?_, rfl⟩
  rcases decoder with _ | impl <;> rfl

/-! ## C20: the error-string table -/

/-- The message of a code value is "Unknown error" exactly when the value is
outside 0..8. -/
theorem error_string_unknown_iff (code : Int) :
    fresco_error_string code = "Unknown error" ↔ (code < 0 ∨ 8 < code) := by
  by_cases hc : 0 ≤ code ∧ code ≤ 8
  · have hno : ¬ (code < 0 ∨ 8 < code) := by omega
    simp only [hno, iff_false]
    have hval : code = 0 ∨ code = 1 ∨ code = 2 ∨ code = 3 ∨ code = 4 ∨ code = 5 ∨ code = 6 ∨
        code = 7 ∨ code = 8 := by omega
    rcases hval with h | h | h | h | h | h | h | h | h <;> subst h <;> decide
  · have hyes : code < 0 ∨ 8 < code := by omega
    simp only [hyes, iff_true]
    unfold fresco_error_string
    simp only [fresco_error_t.value]
    repeat' split_ifs
    all_goals first | rfl | omega

/-- No code value has an empty message. -/
theorem error_string_ne_empty (code : Int) : fresco_error_string code ≠ "" := by
  unfold fresco_error_string
  repeat' split_ifs
  all_goals decide

/-- The integer values of the enumerators are exactly 0..8. -/
theorem error_value_range (code : Int) :
    (∃ e : fresco_error_t, e.value = code) ↔ (0 ≤ code ∧ code ≤ 8) := by
  constructor
  · rintro ⟨e, rfl⟩
    cases e <;> simp [fresco_error_t.value]
  · intro hc
    have hval : code = 0 ∨ code = 1 ∨ code = 2 ∨ code = 3 ∨ code = 4 ∨ code = 5 ∨ code = 6 ∨
        code = 7 ∨ code = 8 := by omega
    rcases hval with h | h | h | h | h | h | h | h | h <;> subst h
    · exact ⟨FRESCO_OK, rfl⟩
    · exact ⟨FRESCO_ERROR_INVALID_PARAMETER, rfl⟩
    · exact ⟨FRESCO_ERROR_OUT_OF_MEMORY, rfl⟩
    · exact ⟨ FRESCO_ERROR_IO, rfl⟩
    · exact ⟨FRESCO_ERROR_UNSUPPORTED_FORMAT, rfl⟩
    · exact ⟨FRESCO_ERROR_CORRUPTED_DATA, rfl⟩
    · exact ⟨FRESCO_ERROR_ENCODING_FAILED, rfl⟩
    · exact ⟨FRESCO_ERROR_DECODING_FAILED, rfl⟩
    · exact ⟨FRESCO_ERROR_NOT_IMPLEMENTED, rfl⟩

/-- C20: `fresco_error_string` maps each of the nine defined error codes to the
message the test asserts, the nine messages are pairwise distinct, and a code
value is mapped to "Unknown error" exactly when it is none of the nine (below 0
or above 8), so every code value has a message, which is never empty. -/
theorem error_string_table (code : Int) :
    fresco_error_string FRESCO_OK.value = "Operation completed successfully" ∧
    fresco_error_string FRESCO_ERROR_INVALID_PARAMETER.value = "Invalid parameter provided" ∧
    fresco_error_string FRESCO_ERROR_OUT_OF_MEMORY.value = "Memory allocation failed" ∧
    fresco_error_string (fresco_error_t.value FRESCO_ERROR_IO) = "Input/output error" ∧
    fresco_error_string FRESCO_ERROR_UNSUPPORTED_FORMAT.value = "Unsupported image format" ∧
    fresco_error_string FRESCO_ERROR_CORRUPTED_DATA.value = "Corrupted or invalid data" ∧
    fresco_error_string FRESCO_ERROR_ENCODING_FAILED.value = "Encoding operation failed" ∧
    fresco_error_string FRESCO_ERROR_DECODING_FAILED.value = "Decoding operation failed" ∧
    fresco_error_string FRESCO_ERROR_NOT_IMPLEMENTED.value = "Feature not yet implemented" ∧
    (List.map (fun e => fresco_error_string (fresco_error_t.value e))
      [FRESCO_OK, FRESCO_ERROR_INVALID_PARAMETER, FRESCO_ERROR_OUT_OF_MEMORY, FRESCO_ERROR_IO,
        FRESCO_ERROR_UNSUPPORTED_FORMAT, FRESCO_ERROR_CORRUPTED_DATA, FRESCO_ERROR_ENCODING_FAILED,
        FRESCO_ERROR_DECODING_FAILED, FRESCO_ERROR_NOT_IMPLEMENTED]).Nodup ∧
    (fresco_error_string code = "Unknown error" ↔ (code < 0 ∨ 8 < code)) ∧
    ((∃ e : fresco_error_t, e.value = code) ↔ (0 ≤ code ∧ code ≤ 8)) ∧
    fresco_error_string code ≠ "" :=
  ⟨by decide, by decide, by decide, by decide, by decide, by decide, by decide, by decide,
    by decide, by decide, error_string_unknown_iff code, error_value_range code,
    error_string_ne_empty code⟩

/-! ## C21: version reporting -/

/-- C21: with three non-null out-pointers `fresco_get_version` returns
`FRESCO_OK` and stores `(FRESCO_VERSION_MAJOR, FRESCO_VERSION_MINOR,
FRESCO_VERSION_PATCH) = (0, 1, 0)`, whatever the targets held; it returns
`FRESCO_ERROR_INVALID_PARAMETER` exactly when one of the pointers is null, and
then stores nothing; `fresco_get_version_string` returns a non-empty string, the
decimal rendering `major.minor.patch` of the same triple. -/
theorem version_reporting (major minor patch : Option Int) (a b c : Int) :
    fresco_get_version (some a) (some b) (some c) = (FRESCO_OK, some 0, some 1, some 0) ∧
    (FRESCO_VERSION_MAJOR, FRESCO_VERSION_MINOR, FRESCO_VERSION_PATCH) = (0, 1, 0) ∧
    fresco_get_version (some a) (some b) (some c)
      = (FRESCO_OK, some FRESCO_VERSION_MAJOR, some FRESCO_VERSION_MINOR, some FRESCO_VERSION_PATCH) ∧
    ((fresco_get_version major minor patch).1 = FRESCO_ERROR_INVALID_PARAMETER ↔
      (major = none ∨ minor = none ∨ patch = none)) ∧
    ((fresco_get_version major minor patch).1 = FRESCO_ERROR_INVALID_PARAMETER →
      (fresco_get_version major minor patch).2 = (major, minor, patch)) ∧
    fresco_get_version_string ≠ "" ∧
    fresco_get_version_string = "0.1.0" ∧
    fresco_get_version_string
      = toString FRESCO_VERSION_MAJOR ++ "." ++ toString FRESCO_VERSION_MINOR ++ "."
          ++ toString FRESCO_VERSION_PATCH := by
  refine ⟨rfl, rfl, rfl, ?_, ?_, by decide, rfl, by decide⟩
  · rcases major with _ | x <;> rcases minor with _ | y <;> rcases patch with _ | z <;>
      simp [fresco_get_version]
  · rcases major with _ | x <;> rcases minor with _ | y <;> rcases patch with _ | z <;>
      simp [fresco_get_version]

/-! ## C22: encode is a pass-through -/

/-- C22: for every non-null input `x` whose length is a multiple of 3 and every
encoder state, on a heap that serves the size of `x`, `encode` (the method and
the C entry point) returns `FRESCO_OK` with output size the length of `x` and
output bytes `x`; `Compression::compress` and `Container::finalize` both return
`FRESCO_OK` with a copy of their input. -/
theorem encode_is_pass_through (enc : EncoderImpl) (heap : Heap) (x : Buffer) (d : Option Buffer)
    (s : Nat) (info : ImageInfo)
    (hx : x.length % 3 = 0) (hheap : heap.serves x.length = true) :
    enc.encode heap (some x) (some d) (some s) = ⟨enc, FRESCO_OK, some (some x), some x.length⟩ ∧
    fresco_encoder_encode (some enc) heap (some x) (some d) (some s)
      = ⟨some enc, FRESCO_OK, some (some x), some x.length⟩ ∧
    Compression.compress heap x info enc.params_ = some (FRESCO_OK, x) ∧
    Container.finalize heap x = some (FRESCO_OK, x) := by
  obtain ⟨hv, _⟩ := (heap.serves_iff _).1 hheap
  refine ⟨encode_of_serves enc heap x d s hx hheap, ?_, ?_, ?_⟩
  · simp only [fresco_encoder_encode, encode_of_serves enc heap x d s hx hheap]
  · simp [Compression.compress, vector_assign, Heap.vector_grants, hv]
  · simp [Container.finalize, vector_assign, Heap.vector_grants, hv]

/-- Witness of C22 on the test fixture image and a lossless encoder. -/
theorem encode_is_pass_through_witness :
    EncoderImpl.encode ⟨⟨FRESCO_COMPRESSION_LOSSLESS, 1, 10, 2, 16, 0, 0, 0⟩⟩ Heap.unbounded
        (some test_image_) (some none) (some 0)
      = ⟨⟨⟨FRESCO_COMPRESSION_LOSSLESS, 1, 10, 2, 16, 0, 0, 0⟩⟩, FRESCO_OK, some (some test_image_),
          some test_image_.length⟩ ∧
    fresco_encoder_encode (some ⟨⟨FRESCO_COMPRESSION_LOSSLESS, 1, 10, 2, 16, 0, 0, 0⟩⟩) Heap.unbounded
        (some test_image_) (some none) (some 0)
      = ⟨some ⟨⟨FRESCO_COMPRESSION_LOSSLESS, 1, 10, 2, 16, 0, 0, 0⟩⟩, FRESCO_OK,
          some (some test_image_), some test_image_.length⟩ ∧
    Compression.compress Heap.unbounded test_image_ ⟨8, 8, 3, 8, FRESCO_COLORSPACE_RGB⟩
        ⟨FRESCO_COMPRESSION_LOSSLESS, 1, 10, 2, 16, 0, 0, 0⟩ = some (FRESCO_OK, test_image_) ∧
    Container.finalize Heap.unbounded test_image_ = some (FRESCO_OK, test_image_) :=
  encode_is_pass_through ⟨⟨FRESCO_COMPRESSION_LOSSLESS, 1, 10, 2, 16, 0, 0, 0⟩⟩ Heap.unbounded
    test_image_ none 0 ⟨8, 8, 3, 8, FRESCO_COLORSPACE_RGB⟩ (by decide) (by decide)

/-! ## C23: decode is a total pass-through -/

/-- C23: for every non-null input `y` of any length and every decoder state, on
a heap that serves the size of `y`, `decode` returns `FRESCO_OK` with output
bytes `y`. Hence decoding the decoded bytes returns them again, and `encode`
applied to the decoded bytes succeeds, with output `y`, exactly when the length
of `y` is a multiple of 3 (otherwise it returns
`FRESCO_ERROR_UNSUPPORTED_FORMAT`). -/
theorem decode_is_pass_through (enc : EncoderImpl) (dec : DecoderImpl) (heap : Heap) (y : Buffer)
    (d : Option Buffer) (s : Nat) (d' : Option Buffer) (s' : Nat)
    (hheap : heap.serves y.length = true) :
    dec.decode heap (some y) (some d) (some s) = ⟨dec, FRESCO_OK, some (some y), some y.length⟩ ∧
    fresco_decoder_decode (some dec) heap (some y) (some d) (some s)
      = ⟨some dec, FRESCO_OK, some (some y), some y.length⟩ ∧
    dec.decode heap (dec.decode heap (some y) (some d) (some s)).output_data.join (some d') (some s')
      = ⟨dec, FRESCO_OK, some (some y), some y.length⟩ ∧
    ((enc.encode heap (dec.decode heap (some y) (some d) (some s)).output_data.join (some d')
          (some s')).status = FRESCO_OK ↔ y.length % 3 = 0) ∧
    (enc.encode heap (dec.decode heap (some y) (some d) (some s)).output_data.join (some d') (some s')
        = ⟨enc, FRESCO_OK, some (some y), some y.length⟩ ↔ y.length % 3 = 0) ∧
    (enc.encode heap (dec.decode heap (some y) (some d) (some s)).output_data.join (some d') (some s')
        = ⟨enc, FRESCO_ERROR_UNSUPPORTED_FORMAT, some d', some s'⟩ ↔ y.length % 3 ≠ 0) := by
  obtain ⟨hv, hm⟩ := (heap.serves_iff _).1 hheap
  have hdec := decode_of_serves dec heap y d s hheap
  have hjoin : (dec.decode heap (some y) (some d) (some s)).output_data.join = some y := by
    rw [hdec]
    rfl
  rw [hjoin]
  refine ⟨hdec, ?_, decode_of_serves dec heap y d' s' hheap, ?_, ?_, ?_⟩
  · simp only [fresco_decoder_decode, hdec]
  · rw [encode_some]
    by_cases hx : y.length % 3 = 0 <;> simp [hx, vector_grants_of_ok hv, hm]
  · rw [encode_some]
    by_cases hx : y.length % 3 = 0 <;> simp [hx, vector_grants_of_ok hv, hm]
  · rw [encode_some]
    by_cases hx : y.length % 3 = 0 <;> simp [hx, vector_grants_of_ok hv, hm]

/-- Witness of C23 on a four-byte buffer, which no encode produces. -/
theorem decode_is_pass_through_witness :
    DecoderImpl.ctor.decode Heap.unbounded (some [9, 8, 7, 6]) (some none) (some 0)
      = ⟨DecoderImpl.ctor, FRESCO_OK, some (some [9, 8, 7, 6]), some ([9, 8, 7, 6] : Buffer).length⟩ ∧
    fresco_decoder_decode (some DecoderImpl.ctor) Heap.unbounded (some [9, 8, 7, 6]) (some none) (some 0)
      = ⟨some DecoderImpl.ctor, FRESCO_OK, some (some [9, 8, 7, 6]),
          some ([9, 8, 7, 6] : Buffer).length⟩ ∧
    DecoderImpl.ctor.decode Heap.unbounded
        (DecoderImpl.ctor.decode Heap.unbounded (some [9, 8, 7, 6]) (some none) (some 0)).output_data.join
        (some none) (some 0)
      = ⟨DecoderImpl.ctor, FRESCO_OK, some (some [9, 8, 7, 6]), some ([9, 8, 7, 6] : Buffer).length⟩ ∧
    ((EncoderImpl.ctor.encode Heap.unbounded
        (DecoderImpl.ctor.decode Heap.unbounded (some [9, 8, 7, 6]) (some none) (some 0)).output_data.join
        (some none) (some 0)).status = FRESCO_OK ↔ ([9, 8, 7, 6] : Buffer).length % 3 = 0) ∧
    (EncoderImpl.ctor.encode Heap.unbounded
        (DecoderImpl.ctor.decode Heap.unbounded (some [9, 8, 7, 6]) (some none) (some 0)).output_data.join
        (some none) (some 0)
      = ⟨EncoderImpl.ctor, FRESCO_OK, some (some [9, 8, 7, 6]), some ([9, 8, 7, 6] : Buffer).length⟩ ↔
        ([9, 8, 7, 6] : Buffer).length % 3 = 0) ∧
    (EncoderImpl.ctor.encode Heap.unbounded
        (DecoderImpl.ctor.decode Heap.unbounded (some [9, 8, 7, 6]) (some none) (some 0)).output_data.join
        (some none) (some 0)
      = ⟨EncoderImpl.ctor, FRESCO_ERROR_UNSUPPORTED_FORMAT, some none, some 0⟩ ↔
        ([9, 8, 7, 6] : Buffer).length % 3 ≠ 0) :=
  decode_is_pass_through EncoderImpl.ctor DecoderImpl.ctor Heap.unbounded [9, 8, 7, 6] none 0 none 0
    (by decide)

/-! ## C24: metadata is constant in the input bytes -/

/-- C24: for every non-null input of any length `n`, `fresco_get_metadata`
returns `FRESCO_OK` and reports width 1920, height 1080, channels 3, bit depth
8, colour space RGB, frame count 1 (frame rate 0) and
`file_size = compressed_size = n`; two inputs of the same length yield identical
metadata, whatever their bytes and whatever the caller's structs held; and
`Container::parse_header` returns the same status and `ContainerInfo` as
`Container::parse`. -/
theorem metadata_constant_in_bytes (y₁ y₂ : Buffer) (m₁ m₂ : fresco_metadata_t)
    (hlen : y₁.length = y₂.length) :
    fresco_get_metadata (some y₁) (some m₁)
      = (FRESCO_OK, some ⟨1920, 1080, 3, 8, FRESCO_COLORSPACE_RGB, 1, 0, y₁.length, y₁.length⟩) ∧
    fresco_get_metadata (some y₁) (some m₁) = fresco_get_metadata (some y₂) (some m₂) ∧
    Container.parse_header y₁ = Container.parse y₁ ∧
    (Container.parse_header y₁).1 = FRESCO_OK ∧
    Container.parse y₁ = Container.parse y₂ := by
  refine ⟨rfl, ?_, rfl, rfl, ?_⟩
  · simp [fresco_get_metadata, DecoderImpl.get_metadata, Container.parse_header, Container.parse,
      hlen]
  · simp [Container.parse, hlen]

/-- Witness of C24 on two different three-byte buffers. -/
theorem metadata_constant_in_bytes_witness :
    fresco_get_metadata (some [1, 2, 3]) (some metadata_zero)
      = (FRESCO_OK, some ⟨1920, 1080, 3, 8, FRESCO_COLORSPACE_RGB, 1, 0,
          ([1, 2, 3] : Buffer).length, ([1, 2, 3] : Buffer).length⟩) ∧
    fresco_get_metadata (some [1, 2, 3]) (some metadata_zero)
      = fresco_get_metadata (some [200, 100, 0])
          (some ⟨7, 7, 7, 7, FRESCO_COLORSPACE_GRAY, 7, 7, 7, 7⟩) ∧
    Container.parse_header [1, 2, 3] = Container.parse [1, 2, 3] ∧
    (Container.parse_header [1, 2, 3]).1 = FRESCO_OK ∧
    Container.parse [1, 2, 3] = Container.parse [200, 100, 0] :=
  metadata_constant_in_bytes [1, 2, 3] [200, 100, 0] metadata_zero
    ⟨7, 7, 7, 7, FRESCO_COLORSPACE_GRAY, 7, 7, 7, 7⟩ (by decide)

/-! ## C25: the encoder parameter invariant -/

/-- C25: a freshly created encoder holds the defaults lossy, quality 85, effort
5, `max_threads` 0, tile size 256 and all feature flags off, and after any
sequence of `set_params` and `encode` calls on it the stored quality lies in
[1, 100] and the stored effort in [1, 10]. -/
theorem encoder_parameter_invariant (calls : List EncoderCall) (h : Option EncoderImpl) :
    fresco_encoder_create true (some h) = (FRESCO_OK, some (some EncoderImpl.ctor)) ∧
    EncoderImpl.ctor.params_ = ⟨FRESCO_COMPRESSION_LOSSY, 85, 5, 0, 256, 0, 0, 0⟩ ∧
    (1 ≤ (EncoderImpl.ctor.run calls).params_.quality ∧
      (EncoderImpl.ctor.run calls).params_.quality ≤ 100) ∧
    (1 ≤ (EncoderImpl.ctor.run calls).params_.effort ∧
      (EncoderImpl.ctor.run calls).params_.effort ≤ 10) := by
  have hinv := run_preserves_range calls EncoderImpl.ctor (by decide)
  exact ⟨rfl, rfl, ⟨hinv.1, hinv.2.1⟩, ⟨hinv.2.2.1, hinv.2.2.2⟩⟩

/-! ## C26: set_params is all-or-nothing -/

/-- C26: `fresco_encoder_set_params` either returns
`FRESCO_ERROR_INVALID_PARAMETER` and leaves the handle's object, hence each of
its eight stored fields, as it was, or returns `FRESCO_OK` and the stored
parameters equal the caller's set in all eight fields. The first happens exactly
for a null handle, a null parameter pointer, a quality outside 1..100 or an
effort outside 1..10, also when the other fields of the rejected set were
valid. -/
theorem set_params_all_or_nothing (encoder : Option EncoderImpl)
    (params : Option fresco_encode_params_t) (enc : EncoderImpl) (p : fresco_encode_params_t) :
    (((fresco_encoder_set_params encoder params).1 = FRESCO_ERROR_INVALID_PARAMETER ∧
        (fresco_encoder_set_params encoder params).2 = encoder) ∨
      ((fresco_encoder_set_params encoder params).1 = FRESCO_OK ∧
        ∃ (e : EncoderImpl) (q : fresco_encode_params_t), encoder = some e ∧ params = some q ∧
          (fresco_encoder_set_params encoder params).2 = some ⟨q⟩)) ∧
    ((fresco_encoder_set_params encoder params).1 = FRESCO_ERROR_INVALID_PARAMETER ↔
      (encoder = none ∨ params = none ∨
        ∃ q : fresco_encode_params_t, params = some q ∧
          (q.quality < 1 ∨ 100 < q.quality ∨ q.effort < 1 ∨ 10 < q.effort))) ∧
    fresco_encoder_set_params (some enc) (some { p with quality := 0, effort := 5 })
      = (FRESCO_ERROR_INVALID_PARAMETER, some enc) ∧
    fresco_encoder_set_params (some enc) (some { p with quality := 50, effort := 11 })
      = (FRESCO_ERROR_INVALID_PARAMETER, some enc) ∧
    (((fresco_encoder_set_params (some enc) (some p)).1 = FRESCO_OK ∧
        ∃ e : EncoderImpl, (fresco_encoder_set_params (some enc) (some p)).2 = some e ∧
          e.params_.mode = p.mode ∧ e.params_.quality = p.quality ∧ e.params_.effort = p.effort ∧
          e.params_.max_threads = p.max_threads ∧ e.params_.tile_size = p.tile_size ∧
          e.params_.enable_animation = p.enable_animation ∧ e.params_.enable_3d = p.enable_3d ∧
          e.params_.enable_vector = p.enable_vector) ∨
      fresco_encoder_set_params (some enc) (some p) = (FRESCO_ERROR_INVALID_PARAMETER, some enc)) := by
  refine ⟨?_, ?_, ?_, ?_, ?_⟩
  · rcases encoder with _ | e
    · exact Or.inl ⟨rfl, rfl⟩
    rcases params with _ | q
    · exact Or.inl ⟨rfl, rfl⟩
    by_cases hq : 1 ≤ q.quality ∧ q.quality ≤ 100 ∧ 1 ≤ q.effort ∧ q.effort ≤ 10
    · right
      have hset : fresco_encoder_set_params (some e) (some q) = (FRESCO_OK, some ⟨q⟩) := by
        simp only [fresco_encoder_set_params, set_params_accept e q hq]
      rw [hset]
      exact ⟨rfl, e, q, rfl, rfl, rfl⟩
    · left
      have hset : fresco_encoder_set_params (some e) (some q)
          = (FRESCO_ERROR_INVALID_PARAMETER, some e) := by
        simp only [fresco_encoder_set_params, set_params_reject e q hq]
      rw [hset]
      exact ⟨rfl, rfl⟩
  · rcases encoder with _ | e
    · simp [fresco_encoder_set_params]
    rcases params with _ | q
    · simp [fresco_encoder_set_params, EncoderImpl.set_params]
    by_cases hq : 1 ≤ q.quality ∧ q.quality ≤ 100 ∧ 1 ≤ q.effort ∧ q.effort ≤ 10
    · simp only [fresco_encoder_set_params, set_params_accept e q hq]
      simp
      omega
    · simp only [fresco_encoder_set_params, set_params_reject e q hq]
      simp
      omega
  · simp only [fresco_encoder_set_params]
    rw [set_params_reject enc _ (by simp)]
  · simp only [fresco_encoder_set_params]
    rw [set_params_reject enc _ (by simp)]
  · by_cases hp : 1 ≤ p.quality ∧ p.quality ≤ 100 ∧ 1 ≤ p.effort ∧ p.effort ≤ 10
    · left
      have hset : fresco_encoder_set_params (some enc) (some p) = (FRESCO_OK, some ⟨p⟩) := by
        simp only [fresco_encoder_set_params, set_params_accept enc p hp]
      rw [hset]
      exact ⟨rfl, ⟨p⟩, rfl, rfl, rfl, rfl, rfl, rfl, rfl, rfl, rfl⟩
    · right
      simp only [fresco_encoder_set_params, set_params_reject enc p hp]

/-! ## C27: encode output is independent of the encoder parameters -/

/-- C27: for every input (null or not), every pair of output pointers, every
heap and every two encoder states, `encode` returns the same status and leaves
the same output bytes and output size; in particular the lossy and the lossless
encoding of the same input are byte-identical, and whenever `encode` succeeds the
output is the input and the output size is the input size. -/
theorem encode_independent_of_parameters (e₁ e₂ : EncoderImpl) (p : fresco_encode_params_t)
    (heap : Heap) (input : Option Buffer) (od : Option (Option Buffer)) (os : Option Nat)
    (x : Buffer) (d : Option Buffer) (s : Nat) :
    (e₁.encode heap input od os).status = (e₂.encode heap input od os).status ∧
    (e₁.encode heap input od os).output_data = (e₂.encode heap input od os).output_data ∧
    (e₁.encode heap input od os).output_size = (e₂.encode heap input od os).output_size ∧
    (EncoderImpl.encode ⟨{ p with mode := FRESCO_COMPRESSION_LOSSY }⟩ heap input od os).status
      = (EncoderImpl.encode ⟨{ p with mode := FRESCO_COMPRESSION_LOSSLESS }⟩ heap input od os).status ∧
    (EncoderImpl.encode ⟨{ p with mode := FRESCO_COMPRESSION_LOSSY }⟩ heap input od os).output_data
      = (EncoderImpl.encode ⟨{ p with mode := FRESCO_COMPRESSION_LOSSLESS }⟩ heap input od
          os).output_data ∧
    ((e₁.encode heap (some x) (some d) (some s)).status = FRESCO_OK →
      (e₁.encode heap (some x) (some d) (some s)).output_data = some (some x) ∧
      (e₁.encode heap (some x) (some d) (some s)).output_size = some x.length) := by
  refine ⟨(encode_params_irrelevant e₁ e₂ heap input od os).1,
    (encode_params_irrelevant e₁ e₂ heap input od os).2.1,
    (encode_params_irrelevant e₁ e₂ heap input od os).2.2,
    (encode_params_irrelevant _ _ heap input od os).1,
    (encode_params_irrelevant _ _ heap input od os).2.1, ?_⟩
  intro hok
  obtain ⟨x', hx', _, hdata, hsize⟩ := encode_ok_output e₁ heap (some x) (some d) (some s) hok
  have hxx : x = x' := by simpa using hx'
  rw [hdata, hsize, hxx]
  exact ⟨rfl, rfl⟩

/-! ## C28: the quality range at the command line -/

/-- C28, the code at the failing input: `--quality 300` is read by `std::stoi`
as 300 and stored in the `uint8_t` field as 44, a set `set_params` accepts, so
`encode in.raw out.fresco --quality 300` encodes the file and `main` exits with
0; likewise `convert` with `--quality 257`, stored as 1. Values whose residue
modulo 256 is outside 1..100 (such as 101, 0 and -5) are rejected with exit code
1: `set_params` accepts the stored quality exactly when the residue of the
given integer modulo 256 lies in 1..100. -/
theorem cli_quality_wraps_modulo_256 :
    stoi "300" = some 300 ∧ to_uint8 300 = 44 ∧
    parse_encode_options ["--quality", "300"] false EncoderImpl.ctor.params_
      = some { EncoderImpl.ctor.params_ with quality := 44 } ∧
    fresco_encoder_set_params (some EncoderImpl.ctor)
        (some { EncoderImpl.ctor.params_ with quality := 44 })
      = (FRESCO_OK, some ⟨{ EncoderImpl.ctor.params_ with quality := 44 }⟩) ∧
    encode_command sample_env ["in.raw", "out.fresco", "--quality", "300"]
      = some ⟨FRESCO_OK, some ("out.fresco", [1, 2, 3, 4, 5, 6])⟩ ∧
    main sample_env ["fresco", "encode", "in.raw", "out.fresco", "--quality", "300"]
      = some (0, some ("out.fresco", [1, 2, 3, 4, 5, 6])) ∧
    parse_encode_options ["--quality", "257"] false EncoderImpl.ctor.params_
      = some { EncoderImpl.ctor.params_ with quality := 1 } ∧
    main sample_env ["fresco", "convert", "in.raw", "out.fresco", "--quality", "257"]
      = some (0, some ("out.fresco", [1, 2, 3, 4, 5, 6])) ∧
    main sample_env ["fresco", "encode", "in.raw", "out.fresco", "--quality", "101"]
      = some (1, none) ∧
    main sample_env ["fresco", "encode", "in.raw", "out.fresco", "--quality", "0"]
      = some (1, none) ∧
    main sample_env ["fresco", "encode", "in.raw", "out.fresco", "--quality", "-5"]
      = some (1, none) ∧
    (∀ v : Int,
      (EncoderImpl.ctor.set_params
          (some { EncoderImpl.ctor.params_ with quality := to_uint8 v })).1 = FRESCO_OK ↔
        (1 ≤ v % 256 ∧ v % 256 ≤ 100)) := by
  refine ⟨by decide, by decide, by decide, by decide, by decide, by decide, by decide, by decide,
    by decide, by decide, by decide, ?_⟩
  intro v
  have hnonneg : 0 ≤ v % 256 := Int.emod_nonneg v (by decide)
  have hcast : ((to_uint8 v : Nat) : Int) = v % 256 := by
    simp only [to_uint8]
    exact Int.toNat_of_nonneg hnonneg
  by_cases hq : 1 ≤ to_uint8 v ∧ to_uint8 v ≤ 100
  · have hacc := set_params_accept EncoderImpl.ctor
      { EncoderImpl.ctor.params_ with quality := to_uint8 v }
      ⟨hq.1, hq.2, by simp [EncoderImpl.ctor], by simp [EncoderImpl.ctor]⟩
    rw [hacc]
    simp only [true_iff]
    omega
  · have hrej := set_params_reject EncoderImpl.ctor
      { EncoderImpl.ctor.params_ with quality := to_uint8 v } (fun h => hq ⟨h.1, h.2.1⟩)
    rw [hrej]
    simp only [reduceCtorEq, false_iff]
    omega

/-! ## C29: the square side computed by the sniffer -/

/-- C29, counterexample: for the length `n = 3 * (2^52 + 2^27)`, a multiple of 3
below `2^64`, the floor square root of `n / 3` is `s = 67108864`, but the sniffer
takes the root in `double`, where it rounds to 67108865: it reports
`width = height = 67108865`, not `s`, and `3 * width * height` is `n + 3`, above
`n`. -/
theorem double_root_exceeds_floor_root :
    (List.replicate (3 * (2 ^ 52 + 2 ^ 27)) 0 : Buffer).length < 2 ^ 64 ∧
    (List.replicate (3 * (2 ^ 52 + 2 ^ 27)) 0 : Buffer).length % 3 = 0 ∧
    Nat.sqrt ((List.replicate (3 * (2 ^ 52 + 2 ^ 27)) 0 : Buffer).length / 3) = 67108864 ∧
    parse_image_format (List.replicate (3 * (2 ^ 52 + 2 ^ 27)) 0)
      = .ok ⟨67108865, 67108865, 3, 8, FRESCO_COLORSPACE_RGB⟩ ∧
    3 * 67108865 * 67108865 = (List.replicate (3 * (2 ^ 52 + 2 ^ 27)) 0 : Buffer).length + 3 ∧
    ¬ (3 * 67108865 * 67108865 ≤ (List.replicate (3 * (2 ^ 52 + 2 ^ 27)) 0 : Buffer).length) := by
  have hlen : (List.replicate (3 * (2 ^ 52 + 2 ^ 27)) 0 : Buffer).length = 3 * (2 ^ 52 + 2 ^ 27) :=
    List.length_replicate _ _
  rw [parse_image_format_eq, hlen]
  refine ⟨by decide, by decide, ?_, by decide, by decide, by decide⟩
  symm
  apply Nat.eq_sqrt.2
  constructor <;> decide

/-- C29, amended: for every input whose length `n < 2^64` is a multiple of 3,
the side the sniffer computes (the `double` square root of `n / 3`, truncated)
is below `2^32`, so the `uint32_t` fields hold it without loss, and the sniffer
succeeds with `width = height = side` (3 channels, bit depth 8, RGB). When
`n / 3 < 2^52` the side is the integer floor square root `s` of `n / 3`, so
`3 * s * s ≤ n < 3 * (s + 1) * (s + 1)`, and `3 * width * height == n` holds if
and only if `n / 3` is a perfect square; for `n = 192` the side is 8. -/
theorem square_side_computation (x : Buffer) (hsize : x.length < 2 ^ 64)
    (hx : x.length % 3 = 0) :
    sqrt_size_t (x.length / 3) < 2 ^ 32 ∧
    sqrt_size_t (x.length / 3) % 2 ^ 32 = sqrt_size_t (x.length / 3) ∧
    parse_image_format x
      = .ok ⟨sqrt_size_t (x.length / 3), sqrt_size_t (x.length / 3), 3, 8, FRESCO_COLORSPACE_RGB⟩ ∧
    (x.length / 3 < 2 ^ 52 →
      sqrt_size_t (x.length / 3) = Nat.sqrt (x.length / 3) ∧
      3 * sqrt_size_t (x.length / 3) * sqrt_size_t (x.length / 3) ≤ x.length ∧
      x.length < 3 * (sqrt_size_t (x.length / 3) + 1) * (sqrt_size_t (x.length / 3) + 1) ∧
      (3 * sqrt_size_t (x.length / 3) * sqrt_size_t (x.length / 3) = x.length ↔
        ∃ k : Nat, x.length / 3 = k * k)) ∧
    sqrt_size_t (192 / 3) = 8 := by
  have hs : sqrt_size_t (x.length / 3) < 2 ^ 32 := sqrt_size_t_lt _ (by omega)
  refine ⟨hs, Nat.mod_eq_of_lt hs, parse_image_format_ok x hx hsize, ?_, by decide⟩
  intro hpixels
  have hle : Nat.sqrt (x.length / 3) * Nat.sqrt (x.length / 3) ≤ x.length / 3 :=
    Nat.sqrt_le (x.length / 3)
  have hlt : x.length / 3 < (Nat.sqrt (x.length / 3) + 1) * (Nat.sqrt (x.length / 3) + 1) :=
    Nat.lt_succ_sqrt (x.length / 3)
  rw [sqrt_size_t_eq _ hpixels]
  refine ⟨rfl, ?_, ?_, ?_⟩
  · rw [Nat.mul_assoc]
    omega
  · rw [Nat.mul_assoc]
    omega
  · rw [Nat.mul_assoc]
    constructor
    · intro h
      exact ⟨Nat.sqrt (x.length / 3), by omega⟩
    · rintro ⟨k, hk⟩
      rw [hk, Nat.sqrt_eq]
      omega

/-- Witness of the amended C29 on the test fixture image: `n = 192`, side 8. -/
theorem square_side_computation_witness :
    sqrt_size_t (test_image_.length / 3) < 2 ^ 32 ∧
    sqrt_size_t (test_image_.length / 3) % 2 ^ 32 = sqrt_size_t (test_image_.length / 3) ∧
    parse_image_format test_image_
      = .ok ⟨sqrt_size_t (test_image_.length / 3), sqrt_size_t (test_image_.length / 3), 3, 8,
          FRESCO_COLORSPACE_RGB⟩ ∧
    (test_image_.length / 3 < 2 ^ 52 →
      sqrt_size_t (test_image_.length / 3) = Nat.sqrt (test_image_.length / 3) ∧
      3 * sqrt_size_t (test_image_.length / 3) * sqrt_size_t (test_image_.length / 3)
        ≤ test_image_.length ∧
      test_image_.length
        < 3 * (sqrt_size_t (test_image_.length / 3) + 1)
            * (sqrt_size_t (test_image_.length / 3) + 1) ∧
      (3 * sqrt_size_t (test_image_.length / 3) * sqrt_size_t (test_image_.length / 3)
          = test_image_.length ↔
        ∃ k : Nat, test_image_.length / 3 = k * k)) ∧
    sqrt_size_t (192 / 3) = 8 :=
  square_side_computation test_image_ (by decide) (by decide)

end fresco
